import Mathlib

/-!
Verification of the VectorDB-POC ranking and recommendation engine.

This file shallowly embeds the post-retrieval ranking core of the repository:
the Levenshtein matcher (`src/utils/fuzzySearch.ts`), the type-aware relevance
booster and the semantic-search orchestration (`src/services/mediaService.ts`),
and the recommendation combinator (`src/services/recommendationService.ts`).

Conventions of the embedding:
  * JavaScript strings are `List Char` (`Str`); `String.prototype.toLowerCase`
    is `lowerS`, `String.prototype.includes` is `containsS`, splitting on the
    regex `\s+` composed with the callers' non-empty filters is `wordsOf`,
    and the literal `split(' ')` (which keeps empty segments) is
    `splitOnSpace`.
  * JavaScript numbers are `ℚ` (exact arithmetic; the code performs no
    operation whose result depends on floating-point rounding for the
    properties proved here).
  * External effects (embedding provider, vector store, record store, the
    current time used by the recency boost) enter as explicit parameters;
    fallible calls are `Except` values.
-/

/-- JavaScript strings are modelled as lists of characters. -/
abbrev Str := List Char

/-- Model of `String.prototype.toLowerCase`. -/
def lowerS (s : Str) : Str := s.map Char.toLower

/-- Model of `String.prototype.includes` (substring containment; an empty
pattern is contained in every string, as in JavaScript). -/
def containsS (hay pat : Str) : Bool := hay.tails.any (fun t => pat.isPrefixOf t)

/-- Splitting on the regex `\s+` with empty segments dropped.  Every caller in
the source filters out empty words (`w.length > 0`, `word.length > 2`, …)
immediately after splitting, so this composition is observationally the
JavaScript behaviour. -/
def wordsOf (s : Str) : List Str :=
  (s.foldr
    (fun c acc =>
      if c.isWhitespace then [] :: acc
      else
        match acc with
        | [] => [[c]]
        | w :: ws => (c :: w) :: ws)
    []).filter (fun w => ¬ w.isEmpty)

/-- Model of the literal `split(' ')`, which keeps empty segments
(`"a  b".split(' ') = ["a", "", "b"]`, `"".split(' ') = [""]`). -/
def splitOnSpace (s : Str) : List Str :=
  s.foldr
    (fun c acc =>
      if c = ' ' then [] :: acc
      else
        match acc with
        | [] => [[c]]
        | w :: ws => (c :: w) :: ws)
    [[]]

/-- Model of `String.prototype.trim`. -/
def trimS (s : Str) : Str :=
  ((s.dropWhile Char.isWhitespace).reverse.dropWhile Char.isWhitespace).reverse

/-!
## Levenshtein matcher — `src/utils/fuzzySearch.ts`, `levenshteinDistance`

The source fills the classic dynamic-programming matrix over prefixes:
`matrix[i][j]` is the edit distance between the first `i` characters of
`str1` and the first `j` characters of `str2`, with base cases
`matrix[i][0] = i`, `matrix[0][j] = j` and step
`matrix[i][j] = matrix[i-1][j-1]` when the characters agree and otherwise
`1 + min(deletion, insertion, substitution)`.  The structural recursion below
is that same recurrence (applied along suffixes, which computes the identical
function); each equation is one case of the matrix fill. -/
def levenshteinDistance : Str → Str → Nat
  | [], ys => ys.length
  | x :: xs, [] => (x :: xs).length
  | x :: xs, y :: ys =>
    if x = y then
      levenshteinDistance xs ys
    else
      1 + min (levenshteinDistance xs (y :: ys))
              (min (levenshteinDistance (x :: xs) ys)
                   (levenshteinDistance xs ys))

lemma levenshteinDistance_nil_right (a : Str) : levenshteinDistance a [] = a.length := by
  cases a <;> simp [levenshteinDistance]

lemma levenshteinDistance_self (a : Str) : levenshteinDistance a a = 0 := by
  induction a with
  | nil => simp [levenshteinDistance]
  | cons x xs ih => simp [levenshteinDistance, ih]

lemma levenshteinDistance_comm (a b : Str) : levenshteinDistance a b = levenshteinDistance b a := by
  induction a generalizing b with
  | nil => simp [levenshteinDistance, levenshteinDistance_nil_right]
  | cons x xs iha =>
    induction b with
    | nil => simp [levenshteinDistance, levenshteinDistance_nil_right]
    | cons y ys ihb =>
      by_cases hxy : x = y
      · subst hxy
        simp [levenshteinDistance, iha ys]
      · have hyx : ¬ y = x := fun h => hxy h.symm
        simp only [levenshteinDistance, if_neg hxy, if_neg hyx]
        rw [iha (y :: ys), iha ys, ← ihb]
        omega

lemma levenshteinDistance_le_max (a b : Str) :
    levenshteinDistance a b ≤ max a.length b.length := by
  induction a generalizing b with
  | nil => simp [levenshteinDistance]
  | cons x xs iha =>
    induction b with
    | nil => simp [levenshteinDistance_nil_right]
    | cons y ys ihb =>
      by_cases hxy : x = y
      · have h := iha ys
        simp only [levenshteinDistance, if_pos hxy, List.length_cons]
        omega
      · have h1 := iha (y :: ys)
        have h2 := iha ys
        have h3 := ihb
        simp only [levenshteinDistance, if_neg hxy, List.length_cons] at *
        omega

lemma levenshteinDistance_eq_zero_iff (a b : Str) :
    levenshteinDistance a b = 0 ↔ a = b := by
  induction a generalizing b with
  | nil =>
    cases b <;> simp [levenshteinDistance]
  | cons x xs iha =>
    cases b with
    | nil => simp [levenshteinDistance_nil_right]
    | cons y ys =>
      by_cases hxy : x = y
      · subst hxy
        simp [levenshteinDistance, iha ys]
      · simp [levenshteinDistance, if_neg hxy, hxy]

/-- C8: `levenshteinDistance` is symmetric, vanishes on equal inputs, is
bounded by the length of the longer input, and is zero exactly on equal
inputs. -/
theorem c8_levenshtein_metric_properties (a b : Str) :
    levenshteinDistance a b = levenshteinDistance b a ∧
    levenshteinDistance a a = 0 ∧
    levenshteinDistance a b ≤ max a.length b.length ∧
    (levenshteinDistance a b = 0 ↔ a = b) :=
  ⟨levenshteinDistance_comm a b, levenshteinDistance_self a,
   levenshteinDistance_le_max a b, levenshteinDistance_eq_zero_iff a b⟩

/-!
## Data model — `src/entities/MediaItem.ts`
-/

/-- Media type enum from `src/entities/MediaItem.ts` (`MediaType`). -/
inductive MediaTypeT
  | text
  | audio
  | video
  | image
deriving DecidableEq

/-- String value of the enum, as stored (`'text' | 'audio' | 'video' | 'image'`). -/
def MediaTypeT.name : MediaTypeT → Str
  | .text => ("text".toList)
  | .audio => ("audio".toList)
  | .video => ("video".toList)
  | .image => ("image".toList)

/-- Media record from `src/entities/MediaItem.ts` (`MediaItem`).  The
`embedding` column stores the vector as text; it is modelled here in parsed
form as an optional list of rationals.  Timestamps are rationals
(milliseconds since epoch, the unit of `Date.getTime()`). -/
structure MediaItem where
  id : Str
  title : Str
  type : MediaTypeT
  content : Option Str := none
  description : Option Str := none
  filePath : Option Str := none
  url : Option Str := none
  mimeType : Option Str := none
  embedding : Option (List ℚ) := none
  createdAt : Option ℚ := none
deriving DecidableEq

/-- JavaScript truthiness of an optional string field (`undefined`, `null`
and the empty string are falsy). -/
def truthy : Option Str → Bool
  | none => false
  | some s => ¬ s.isEmpty

/-!
## Boost configuration

Modelled from the spec: the `MediaMatchingSettings` constant object lives in
`src/config/vectordb.settings.ts`, whose copy in the snapshot does not
include it; the field set is taken from the uses in
`src/services/mediaService.ts` and the concrete values from the repository's
own documentation (`docs/TYPE_AWARE_BOOSTING_IMPROVEMENTS.md`,
"Configuration Settings").
-/

/-- Tunables consumed by `applyTypeAwareBoosting` (shape of the
`MediaMatchingSettings` object). -/
structure MediaMatchingSettingsT where
  TYPE_MATCH_BOOST : ℚ
  PLATFORM_MATCH_BOOST : ℚ
  TITLE_MATCH_BOOST : ℚ
  DESCRIPTION_MATCH_BOOST : ℚ
  METADATA_MATCH_BOOST : ℚ
  KEYWORDS_BOOST : ℚ
  INTENT_MATCH_BOOST : ℚ
  TRANSCRIPTION_MATCH_BOOST : ℚ
  PHRASE_MATCH_BOOST : ℚ
  RECENCY_BOOST_ENABLED : Bool
  RECENCY_BOOST_MAX_DAYS : ℚ
  RECENCY_BOOST_MULTIPLIER : ℚ
  USE_ADDITIVE_BOOSTS : Bool
  MAX_TOTAL_BOOST : ℚ
  MIN_SIMILARITY_FOR_BOOST : ℚ

/-- Modelled from the spec: the documented configuration values
(multiplicative boosts, 50% total cap, 0.1 boosting floor). -/
def MediaMatchingSettings : MediaMatchingSettingsT where
  TYPE_MATCH_BOOST := (115 : ℚ) / 100            -- 1.15
  PLATFORM_MATCH_BOOST := (112 : ℚ) / 100        -- 1.12
  TITLE_MATCH_BOOST := (118 : ℚ) / 100           -- 1.18
  DESCRIPTION_MATCH_BOOST := (108 : ℚ) / 100     -- 1.08
  METADATA_MATCH_BOOST := (110 : ℚ) / 100        -- 1.1
  KEYWORDS_BOOST := (105 : ℚ) / 100              -- 1.05
  INTENT_MATCH_BOOST := (114 : ℚ) / 100          -- 1.14
  TRANSCRIPTION_MATCH_BOOST := (120 : ℚ) / 100   -- 1.2
  PHRASE_MATCH_BOOST := (125 : ℚ) / 100          -- 1.25
  RECENCY_BOOST_ENABLED := true
  RECENCY_BOOST_MAX_DAYS := 30
  RECENCY_BOOST_MULTIPLIER := (103 : ℚ) / 100    -- 1.03
  USE_ADDITIVE_BOOSTS := false
  MAX_TOTAL_BOOST := (3 : ℚ) / 2                 -- 1.5
  MIN_SIMILARITY_FOR_BOOST := (1 : ℚ) / 10       -- 0.1

/-!
## Relevance booster — `src/services/mediaService.ts`, `applyTypeAwareBoosting`
and its helper checks (lines 1030–1554).  The `matchType`/`platform`/`format`
name strings returned by the helpers feed only the human-readable log trace;
the embedding keeps the fields that influence the score.
-/

/-- Stop-word set shared by `extractQueryWords` and `isStopWord`
(`src/services/mediaService.ts`). -/
def stopWords : List Str :=
  [("the".toList), ("a".toList), ("an".toList), ("and".toList), ("or".toList),
   ("but".toList), ("in".toList), ("on".toList), ("at".toList), ("to".toList),
   ("for".toList), ("of".toList), ("with".toList), ("by".toList),
   ("from".toList), ("as".toList), ("is".toList), ("was".toList),
   ("are".toList), ("were".toList), ("been".toList), ("be".toList),
   ("have".toList), ("has".toList), ("had".toList), ("do".toList),
   ("does".toList), ("did".toList), ("will".toList), ("would".toList),
   ("could".toList), ("should".toList), ("may".toList), ("might".toList),
   ("must".toList), ("can".toList), ("this".toList), ("that".toList),
   ("these".toList), ("those".toList), ("what".toList), ("which".toList),
   ("who".toList), ("whom".toList), ("whose".toList), ("where".toList),
   ("when".toList), ("why".toList), ("how".toList), ("all".toList),
   ("each".toList), ("every".toList), ("both".toList), ("few".toList),
   ("more".toList), ("most".toList), ("other".toList), ("some".toList),
   ("such".toList), ("no".toList), ("nor".toList), ("not".toList),
   ("only".toList), ("own".toList), ("same".toList), ("so".toList),
   ("than".toList), ("too".toList), ("very".toList), ("just".toList),
   ("about".toList), ("into".toList), ("through".toList),
   ("during".toList), ("before".toList), ("after".toList),
   ("above".toList), ("below".toList), ("up".toList), ("down".toList),
   ("out".toList), ("off".toList), ("over".toList), ("under".toList),
   ("again".toList), ("further".toList), ("then".toList), ("once".toList)]

/-- `extractQueryWords`: lowercase, split on whitespace, keep words longer
than two characters that are not stop words. -/
def extractQueryWords (query : Str) : List Str :=
  (wordsOf (lowerS query)).filter (fun w => w.length > 2 && ¬ stopWords.contains w)

/-- `checkTypeMatch`: the query names the record's media type or one of its
audio/video synonyms.  (The `'exact'`/`'synonym'` tag is log-only.) -/
def checkTypeMatch (itemType : MediaTypeT) (query : Str) : Bool :=
  if containsS query (lowerS itemType.name) then true
  else if itemType = .audio then
    [("audio".toList), ("sound".toList), ("podcast".toList), ("music".toList),
     ("song".toList), ("track".toList), ("recording".toList)].any
      (fun term => containsS query term)
  else if itemType = .video then
    [("video".toList), ("movie".toList), ("clip".toList), ("film".toList),
     ("recording".toList), ("stream".toList), ("playback".toList)].any
      (fun term => containsS query term)
  else false

/-- One platform entry of `checkPlatformMatch`: query aliases and the
literal alternatives of the case-insensitive URL regex. -/
structure PlatformEntry where
  patterns : List Str
  urlPats : List Str

/-- The platform table of `checkPlatformMatch`. -/
def platforms : List PlatformEntry :=
  [⟨[("youtube".toList), ("yt".toList), ("youtu.be".toList)],
    [("youtube".toList), ("youtu.be".toList)]⟩,
   ⟨[("vimeo".toList)], [("vimeo".toList)]⟩,
   ⟨[("dailymotion".toList), ("dailymo".toList)], [("dailymotion".toList)]⟩,
   ⟨[("tiktok".toList), ("tik tok".toList)], [("tiktok".toList)]⟩,
   ⟨[("instagram".toList), ("ig".toList)], [("instagram".toList)]⟩]

/-- `checkPlatformMatch`: the record's URL matches a platform's URL pattern
and the query mentions one of that platform's aliases. -/
def checkPlatformMatch (url : Option Str) (query : Str) : Bool :=
  match url with
  | none => false
  | some u =>
    platforms.any (fun p =>
      p.urlPats.any (fun pat => containsS (lowerS u) pat) &&
      p.patterns.any (fun pat => containsS query pat))

/-- Result of `checkFieldMatch` (the `matchType` string is log-only). -/
structure FieldMatchRes where
  matched : Bool
  exactMatch : Bool

/-- `checkFieldMatch`: exact phrase > all query words > at least 60% of the
words (for multi-word queries) > any word. -/
def checkFieldMatch (fieldText query : Str) (queryWords : List Str) : FieldMatchRes :=
  let fieldLower := lowerS fieldText
  if containsS fieldLower query then ⟨true, true⟩
  else if queryWords.all (fun w => containsS fieldLower w) && queryWords.length > 0 then
    ⟨true, true⟩
  else
    let matchingWords := queryWords.filter (fun w => containsS fieldLower w)
    if ((matchingWords.length : ℚ) / (queryWords.length : ℚ) ≥ 6 / 10) ∧
        queryWords.length > 1 then
      ⟨true, false⟩
    else if matchingWords.length > 0 then ⟨true, false⟩
    else ⟨false, false⟩

/-- One format entry of `checkFormatMatch`: format names and the literal
alternatives of the case-insensitive MIME regex. -/
structure FormatEntry where
  names : List Str
  mimePats : List Str

/-- The format table of `checkFormatMatch`. -/
def formats : List FormatEntry :=
  [⟨[("mp3".toList), ("mpeg".toList)], [("audio/mpeg".toList), ("audio/mp3".toList)]⟩,
   ⟨[("mp4".toList), ("mpeg4".toList)], [("video/mp4".toList)]⟩,
   ⟨[("wav".toList), ("wave".toList)], [("audio/wav".toList), ("audio/wave".toList)]⟩,
   ⟨[("webm".toList)], [("video/webm".toList), ("audio/webm".toList)]⟩,
   ⟨[("ogg".toList), ("ogv".toList)], [("audio/ogg".toList), ("video/ogg".toList)]⟩,
   ⟨[("flac".toList)], [("audio/flac".toList)]⟩,
   ⟨[("aac".toList)], [("audio/aac".toList)]⟩,
   ⟨[("mov".toList), ("quicktime".toList)],
    [("video/quicktime".toList), ("video/mov".toList)]⟩,
   ⟨[("avi".toList)], [("video/x-msvideo".toList), ("video/avi".toList)]⟩]

/-- `checkFormatMatch`: the record's MIME type or URL extension maps to a
format name that the query also mentions. -/
def checkFormatMatch (mimeType url : Option Str) (query : Str) : Bool :=
  formats.any (fun f =>
    (match mimeType with
     | some m =>
       f.mimePats.any (fun pat => containsS (lowerS m) pat) &&
       f.names.any (fun n => containsS query n)
     | none => false) ||
    (match url with
     | some u =>
       f.names.any (fun n => containsS (lowerS u) ('.' :: n)) &&
       f.names.any (fun n => containsS query n)
     | none => false))

/-- Result of `checkMediaKeywords` (the matched keyword list itself feeds
only the log trace; its length determines `matchStrength`). -/
structure KeywordMatchRes where
  matched : Bool
  matchStrength : ℚ

/-- Keyword list for audio records in `checkMediaKeywords`. -/
def audioKeywords : List Str :=
  [("audio".toList), ("sound".toList), ("recording".toList),
   ("podcast".toList), ("music".toList), ("song".toList), ("track".toList),
   ("audio file".toList), ("sound file".toList), ("audio recording".toList),
   ("music track".toList), ("podcast episode".toList), ("audio clip".toList),
   ("sound clip".toList), ("audio stream".toList), ("mp3".toList),
   ("wav".toList), ("flac".toList), ("aac".toList), ("ogg".toList)]

/-- Keyword list for video (and, by the source's `else` branch, any
non-audio) records in `checkMediaKeywords`. -/
def videoKeywords : List Str :=
  [("video".toList), ("movie".toList), ("clip".toList), ("film".toList),
   ("recording".toList), ("stream".toList), ("playback".toList),
   ("video file".toList), ("video clip".toList), ("video recording".toList),
   ("movie clip".toList), ("film clip".toList), ("video stream".toList),
   ("online video".toList), ("video link".toList), ("mp4".toList),
   ("webm".toList), ("mov".toList), ("avi".toList), ("youtube".toList),
   ("vimeo".toList)]

/-- `checkMediaKeywords`: the query contains type-specific keywords; match
strength is `min(1, 0.8 + 0.05 × #matches)`. -/
def checkMediaKeywords (itemType : MediaTypeT) (query : Str) : KeywordMatchRes :=
  let keywords := if itemType = .audio then audioKeywords else videoKeywords
  let matchedKeywords := keywords.filter (fun k => containsS query k)
  if matchedKeywords.length > 0 then
    ⟨true, min 1 ((8 : ℚ) / 10 + (matchedKeywords.length : ℚ) * (5 / 100))⟩
  else ⟨false, 1⟩

/-- One intent entry of `checkQueryIntent`; an empty `types` list means the
intent applies to every media type. -/
structure IntentEntry where
  keywords : List Str
  types : List MediaTypeT

/-- The intent table of `checkQueryIntent` (only `music` is restricted, to
audio). -/
def intents : List IntentEntry :=
  [⟨[("tutorial".toList), ("how to".toList), ("learn".toList),
     ("guide".toList), ("course".toList), ("lesson".toList),
     ("teach".toList), ("explain".toList), ("walkthrough".toList)], []⟩,
   ⟨[("review".toList), ("opinion".toList), ("thoughts".toList),
     ("rating".toList), ("critique".toList), ("analysis".toList),
     ("evaluation".toList)], []⟩,
   ⟨[("music".toList), ("song".toList), ("track".toList), ("album".toList),
     ("artist".toList), ("musician".toList), ("band".toList),
     ("lyrics".toList), ("melody".toList)], [.audio]⟩,
   ⟨[("interview".toList), ("conversation".toList), ("discussion".toList),
     ("talk".toList), ("chat".toList), ("q&a".toList), ("qa".toList)], []⟩,
   ⟨[("lecture".toList), ("presentation".toList), ("talk".toList),
     ("speech".toList), ("seminar".toList), ("webinar".toList)], []⟩,
   ⟨[("demo".toList), ("demonstration".toList), ("example".toList),
     ("sample".toList), ("showcase".toList), ("preview".toList)], []⟩,
   ⟨[("news".toList), ("report".toList), ("update".toList),
     ("breaking".toList), ("latest".toList), ("current events".toList)], []⟩]

/-- `checkQueryIntent`: the query contains a keyword of an intent that is
admissible for the record's media type. -/
def checkQueryIntent (query : Str) (itemType : MediaTypeT) : Bool :=
  intents.any (fun intent =>
    (intent.types.isEmpty || intent.types.contains itemType) &&
    intent.keywords.any (fun k => containsS query k))

/-- Splitting helper for the `content.split('transcription:')` step: the text
before the first occurrence of `pat` and the text after it, or `none` when
`pat` does not occur. -/
def splitFirstOcc (pat : Str) : Str → Option (Str × Str)
  | [] => if pat.isPrefixOf ([] : Str) then some ([], []) else none
  | c :: rest =>
    if pat.isPrefixOf (c :: rest) then some ([], (c :: rest).drop pat.length)
    else
      match splitFirstOcc pat rest with
      | none => none
      | some (pre, post) => some (c :: pre, post)

/-- The segment `split(pat)[1]` of JavaScript: the text between the first
and the second occurrence of `pat` (or everything after the first occurrence
when there is no second one). -/
def secondSegment (hay pat : Str) : Option Str :=
  match splitFirstOcc pat hay with
  | none => none
  | some (_, rest) =>
    match splitFirstOcc pat rest with
    | none => some rest
    | some (pre, _) => some pre

/-- Result of `checkTranscriptionMatch` (the `matchType` string is
log-only). -/
structure TranscriptionMatchRes where
  matched : Bool
  matchStrength : ℚ
  hasPhraseMatch : Bool

/-- `checkTranscriptionMatch`: strips an optional `transcription:` prefix
segment, then tests exact phrase > two-word consecutive sub-phrase > all
words > at least 60% of the words > any word, with decreasing strengths. -/
def checkTranscriptionMatch (content : Option Str) (query : Str)
    (queryWords : List Str) : TranscriptionMatchRes :=
  if ¬ truthy content then ⟨false, 1, false⟩
  else
    let contentLower := lowerS (content.getD [])
    let pat : Str := ("transcription:".toList)
    let transcriptionText :=
      if containsS contentLower pat then
        match secondSegment contentLower pat with
        | some seg =>
          let t := trimS seg
          if t.isEmpty then contentLower else t
        | none => contentLower
      else contentLower
    if containsS transcriptionText query then ⟨true, 1, true⟩
    else if queryWords.length ≥ 2 ∧
        (queryWords.zip queryWords.tail).any
          (fun p => containsS transcriptionText (p.1 ++ ' ' :: p.2)) then
      ⟨true, 9 / 10, true⟩
    else if queryWords.all (fun w => containsS transcriptionText w) ∧
        queryWords.length > 0 then
      ⟨true, 85 / 100, false⟩
    else
      let matchingWords := queryWords.filter (fun w => containsS transcriptionText w)
      if ((matchingWords.length : ℚ) / (queryWords.length : ℚ) ≥ 6 / 10) ∧
          queryWords.length > 1 then
        ⟨true, 7 / 10, false⟩
      else if matchingWords.length > 0 then ⟨true, 5 / 10, false⟩
      else ⟨false, 1, false⟩

/-- `calculateRecencyBoost`: linear decay from the full multiplier at age 0
to none at `RECENCY_BOOST_MAX_DAYS`; `now` and `createdAt` are in
milliseconds. -/
def calculateRecencyBoost (S : MediaMatchingSettingsT) (now createdAt : ℚ) : ℚ :=
  if ¬ S.RECENCY_BOOST_ENABLED then 1
  else
    let daysSinceCreation := (now - createdAt) / (1000 * 60 * 60 * 24)
    if daysSinceCreation > S.RECENCY_BOOST_MAX_DAYS then 1
    else
      let boostDecay := 1 - daysSinceCreation / S.RECENCY_BOOST_MAX_DAYS
      1 + (S.RECENCY_BOOST_MULTIPLIER - 1) * boostDecay

/-- The ordered list of boost factors pushed onto `boostFactors` by
`applyTypeAwareBoosting` (the running multiplier of the source is their
product; the factor-name strings are log-only). -/
def boostSteps (S : MediaMatchingSettingsT) (now : ℚ) (item : MediaItem)
    (queryLower : Str) (queryWords : List Str) : List ℚ :=
  if item.type = .audio ∨ item.type = .video then
    (if checkTypeMatch item.type queryLower then [S.TYPE_MATCH_BOOST] else []) ++
    (if checkPlatformMatch item.url queryLower then [S.PLATFORM_MATCH_BOOST] else []) ++
    (if ¬ item.title.isEmpty then
      let titleMatch := checkFieldMatch item.title queryLower queryWords
      if titleMatch.matched then
        [if titleMatch.exactMatch then S.TITLE_MATCH_BOOST
         else S.TITLE_MATCH_BOOST * (9 / 10)]
      else []
    else []) ++
    (if truthy item.description then
      let descMatch := checkFieldMatch (item.description.getD []) queryLower queryWords
      if descMatch.matched then
        [if descMatch.exactMatch then S.DESCRIPTION_MATCH_BOOST
         else S.DESCRIPTION_MATCH_BOOST * (9 / 10)]
      else []
    else []) ++
    (if checkFormatMatch item.mimeType item.url queryLower then
      [S.METADATA_MATCH_BOOST]
    else []) ++
    (let keywordMatch := checkMediaKeywords item.type queryLower
     if keywordMatch.matched then [S.KEYWORDS_BOOST * keywordMatch.matchStrength]
     else []) ++
    (if checkQueryIntent queryLower item.type then [S.INTENT_MATCH_BOOST] else []) ++
    (let transcriptionMatch := checkTranscriptionMatch item.content queryLower queryWords
     if transcriptionMatch.matched then
       [(if transcriptionMatch.hasPhraseMatch then S.PHRASE_MATCH_BOOST
         else S.TRANSCRIPTION_MATCH_BOOST) * transcriptionMatch.matchStrength]
     else []) ++
    (if S.RECENCY_BOOST_ENABLED then
      match item.createdAt with
      | some created =>
        let recencyBoost := calculateRecencyBoost S now created
        if recencyBoost > 1 then [recencyBoost] else []
      | none => []
    else [])
  else []

/-- `applyTypeAwareBoosting`: below the boosting floor the similarity passes
through; otherwise the triggered factors are combined multiplicatively (or,
when `USE_ADDITIVE_BOOSTS` is set, as an additive adjustment proportional to
the base), capped at `base × MAX_TOTAL_BOOST` and then at 1. -/
def applyTypeAwareBoosting (S : MediaMatchingSettingsT) (now : ℚ)
    (item : MediaItem) (query : Str) (baseSimilarity : ℚ) : ℚ :=
  if baseSimilarity < S.MIN_SIMILARITY_FOR_BOOST then baseSimilarity
  else
    let queryLower := lowerS query
    let queryWords := extractQueryWords queryLower
    let totalBoostMultiplier :=
      (boostSteps S now item queryLower queryWords).foldl (· * ·) 1
    let boostedSimilarity :=
      if S.USE_ADDITIVE_BOOSTS then
        baseSimilarity + (totalBoostMultiplier - 1) * baseSimilarity
      else baseSimilarity * totalBoostMultiplier
    min 1 (min boostedSimilarity (baseSimilarity * S.MAX_TOTAL_BOOST))

/-!
## Claims about the relevance booster (C1, C9, C10)
-/

/-- The two boost-combination modes compute the same value: the additive
adjustment is `base + (F − 1)·base`, which is `base·F` exactly. -/
lemma boost_modes_agree (S : MediaMatchingSettingsT) (now : ℚ)
    (item : MediaItem) (query : Str) (base : ℚ) :
    applyTypeAwareBoosting { S with USE_ADDITIVE_BOOSTS := true } now item query base =
    applyTypeAwareBoosting { S with USE_ADDITIVE_BOOSTS := false } now item query base := by
  have hsteps : boostSteps { S with USE_ADDITIVE_BOOSTS := true } now item
      (lowerS query) (extractQueryWords (lowerS query)) =
      boostSteps { S with USE_ADDITIVE_BOOSTS := false } now item
      (lowerS query) (extractQueryWords (lowerS query)) := rfl
  have harith : ∀ F : ℚ, base + (F - 1) * base = base * F := fun F => by ring
  simp only [applyTypeAwareBoosting, hsteps, harith]
  norm_num

/-- Audio item matching the single keyword `flac` and nothing else. -/
def itemFlac : MediaItem :=
  { id := [], title := [], type := MediaTypeT.audio }

/-- C1, counterexample: at base similarity 1/2 (above the 0.1 boosting
floor), the audio record with no metadata and the query `"flac"` trigger
exactly the keyword factor, whose value is `1.05 × 0.85 = 0.8925 < 1`, so
the final similarity falls strictly below the base similarity — outside the
claimed interval `[s, min(1, s × maxTotalBoost)]`. -/
theorem c1_boost_below_base_counterexample :
    MediaMatchingSettings.MIN_SIMILARITY_FOR_BOOST ≤ (1 : ℚ) / 2 ∧
    applyTypeAwareBoosting MediaMatchingSettings 0 itemFlac ("flac".toList) (1 / 2)
      < 1 / 2 := by
  constructor
  · norm_num [MediaMatchingSettings]
  · have hlen : (audioKeywords.filter
        (fun k => containsS (lowerS ("flac".toList)) k)).length = 1 := by decide
    have hsteps : boostSteps MediaMatchingSettings 0 itemFlac (lowerS ("flac".toList))
        (extractQueryWords (lowerS ("flac".toList))) =
        [MediaMatchingSettings.KEYWORDS_BOOST *
          min 1 ((8 : ℚ) / 10 +
            ((audioKeywords.filter
              (fun k => containsS (lowerS ("flac".toList)) k)).length : ℚ) * (5 / 100))] := rfl
    rw [applyTypeAwareBoosting,
      if_neg (by norm_num [MediaMatchingSettings] :
        ¬ ((1 : ℚ) / 2 < MediaMatchingSettings.MIN_SIMILARITY_FOR_BOOST))]
    simp only [hsteps, hlen]
    simp only [List.foldl_cons, List.foldl_nil, one_mul, Nat.cast_one]
    simp only [MediaMatchingSettings]
    norm_num [min_def]

/-- C1 (amended): for base similarities in `[minSimilarityForBoost, 1]` the
booster's output never exceeds `min(1, base × maxTotalBoost)` and equals the
base exactly when no factor triggers; the claimed lower bound `base ≤ output`
is dropped (a triggered factor with value below 1 — e.g. a single-keyword
match — pushes the output below the base, see the counterexample). -/
theorem c1_boost_range_amended (S : MediaMatchingSettingsT) (now : ℚ)
    (item : MediaItem) (query : Str) (base : ℚ)
    (hmin0 : 0 ≤ S.MIN_SIMILARITY_FOR_BOOST)
    (hmax : 1 ≤ S.MAX_TOTAL_BOOST)
    (hb : S.MIN_SIMILARITY_FOR_BOOST ≤ base)
    (hb1 : base ≤ 1) :
    applyTypeAwareBoosting S now item query base ≤ min 1 (base * S.MAX_TOTAL_BOOST) ∧
    (boostSteps S now item (lowerS query) (extractQueryWords (lowerS query)) = [] →
      applyTypeAwareBoosting S now item query base = base) := by
  rw [applyTypeAwareBoosting, if_neg (not_lt.mpr hb)]
  have h0 : 0 ≤ base := le_trans hmin0 hb
  have hle : base ≤ base * S.MAX_TOTAL_BOOST := le_mul_of_one_le_right h0 hmax
  constructor
  · exact min_le_min le_rfl (min_le_right _ _)
  · intro hempty
    simp only [hempty, List.foldl_nil]
    by_cases hadd : S.USE_ADDITIVE_BOOSTS <;>
      simp [hadd, sub_self, zero_mul, add_zero, mul_one,
        min_eq_left hle, min_eq_right hb1]

/-- Text item used to instantiate claims at a concrete record. -/
def itemDoc : MediaItem :=
  { id := [], title := ("doc".toList), type := MediaTypeT.text }

/-- C1, witness: the amended range theorem applied at a concrete record,
query and base similarity. -/
theorem c1_boost_range_amended_witness :
    applyTypeAwareBoosting MediaMatchingSettings 0 itemDoc ("hello".toList) (1 / 2)
        ≤ min 1 ((1 / 2) * MediaMatchingSettings.MAX_TOTAL_BOOST) ∧
    (boostSteps MediaMatchingSettings 0 itemDoc (lowerS ("hello".toList))
        (extractQueryWords (lowerS ("hello".toList))) = [] →
      applyTypeAwareBoosting MediaMatchingSettings 0 itemDoc ("hello".toList) (1 / 2)
        = 1 / 2) :=
  c1_boost_range_amended MediaMatchingSettings 0 itemDoc ("hello".toList) (1 / 2)
    (by norm_num [MediaMatchingSettings]) (by norm_num [MediaMatchingSettings])
    (by norm_num [MediaMatchingSettings]) (by norm_num)

/-- C9, counterexample: there is no input on which the additive-boost mode
and the multiplicative mode of `applyTypeAwareBoosting` disagree — the two
strategies are the same function in exact arithmetic, refuting the claimed
divergence. -/
theorem c9_modes_diverge_counterexample :
    ¬ ∃ (now : ℚ) (item : MediaItem) (query : Str) (base : ℚ),
      applyTypeAwareBoosting { MediaMatchingSettings with USE_ADDITIVE_BOOSTS := true }
          now item query base ≠
      applyTypeAwareBoosting { MediaMatchingSettings with USE_ADDITIVE_BOOSTS := false }
          now item query base := by
  rintro ⟨now, item, query, base, hne⟩
  exact hne (boost_modes_agree MediaMatchingSettings now item query base)

/-- C9 (amended): the additive mode `base + (F − 1)·base` and the
multiplicative mode `base·F` are algebraically identical, so for every
configuration and every input the two boost-combination strategies produce
the same final similarity; any observed divergence could only come from
floating-point rounding, not from the formulas. -/
theorem c9_modes_equivalent (S : MediaMatchingSettingsT) (now : ℚ)
    (item : MediaItem) (query : Str) (base : ℚ) :
    applyTypeAwareBoosting { S with USE_ADDITIVE_BOOSTS := true } now item query base =
    applyTypeAwareBoosting { S with USE_ADDITIVE_BOOSTS := false } now item query base :=
  boost_modes_agree S now item query base

/-- Text and image records pass through the booster unchanged (shared
between several claims): every boost factor sits behind the audio/video
guard, so the multiplier stays 1 and the caps are inert for base
similarities at most 1. -/
lemma boost_skips_text_image (S : MediaMatchingSettingsT) (now : ℚ)
    (item : MediaItem) (query : Str) (base : ℚ)
    (htype : item.type = MediaTypeT.text ∨ item.type = MediaTypeT.image)
    (hmin0 : 0 ≤ S.MIN_SIMILARITY_FOR_BOOST)
    (hmax : 1 ≤ S.MAX_TOTAL_BOOST)
    (hb1 : base ≤ 1) :
    applyTypeAwareBoosting S now item query base = base := by
  rw [applyTypeAwareBoosting]
  by_cases hlt : base < S.MIN_SIMILARITY_FOR_BOOST
  · simp [hlt]
  · have hguard : ¬ (item.type = MediaTypeT.audio ∨ item.type = MediaTypeT.video) := by
      rcases htype with h | h <;> simp [h]
    have h0 : 0 ≤ base := le_trans hmin0 (not_lt.mp hlt)
    have hle : base ≤ base * S.MAX_TOTAL_BOOST := le_mul_of_one_le_right h0 hmax
    simp only [if_neg hlt, boostSteps, if_neg hguard, List.foldl_nil]
    by_cases hadd : S.USE_ADDITIVE_BOOSTS <;>
      simp [hadd, min_eq_left hle, min_eq_right hb1]

/-- C10: for text and image records the booster is the identity on any base
similarity at most 1 (every boost factor sits behind the audio/video guard),
for any configuration with a nonnegative boosting floor and a total-boost
cap of at least 1. -/
theorem c10_text_image_unchanged (S : MediaMatchingSettingsT) (now : ℚ)
    (item : MediaItem) (query : Str) (base : ℚ)
    (htype : item.type = MediaTypeT.text ∨ item.type = MediaTypeT.image)
    (hmin0 : 0 ≤ S.MIN_SIMILARITY_FOR_BOOST)
    (hmax : 1 ≤ S.MAX_TOTAL_BOOST)
    (hb1 : base ≤ 1) :
    applyTypeAwareBoosting S now item query base = base :=
  boost_skips_text_image S now item query base htype hmin0 hmax hb1

/-- C10, witness: a text record is untouched even by a query full of
boost-triggering words. -/
theorem c10_text_image_unchanged_witness :
    applyTypeAwareBoosting MediaMatchingSettings 0 itemDoc
      ("video tutorial youtube".toList) (3 / 4) = 3 / 4 :=
  c10_text_image_unchanged MediaMatchingSettings 0 itemDoc
    ("video tutorial youtube".toList) (3 / 4) (Or.inl rfl)
    (by norm_num [MediaMatchingSettings]) (by norm_num [MediaMatchingSettings])
    (by norm_num)

/-!
## Semantic search — `src/services/mediaService.ts`, `semanticSearch`
(lines 1606–1818), `calculateRelevanceScore` (1842–1877) and the settings it
reads from `src/config/vectordb.settings.ts`.  The embedding provider, the
embedding count query and the candidate `SELECT` are external calls and
enter as `Except` parameters; `relatedConcepts` extraction is a separate
pure function that no claim concerns and is omitted.
-/

/-- `SimilaritySettings.PROGRESSIVE_THRESHOLDS` — `[0.2, 0.1, 0.05, 0.0]`. -/
def PROGRESSIVE_THRESHOLDS : List ℚ := [2 / 10, 1 / 10, 5 / 100, 0]

/-- `SimilaritySettings.STRONG_MATCH_THRESHOLD` — `0.5`. -/
def STRONG_MATCH_THRESHOLD : ℚ := 5 / 10

/-- `DistanceSettings.SEMANTIC_SEARCH_ADAPTIVE_THRESHOLD` — `1.0`. -/
def SEMANTIC_SEARCH_ADAPTIVE_THRESHOLD : ℚ := 1

/-- `SemanticSearchSettings.TITLE_MATCH_BOOST` — `0.1`. -/
def SEM_TITLE_MATCH_BOOST : ℚ := 1 / 10

/-- `SemanticSearchSettings.PARTIAL_WORD_MATCH_BOOST` — `0.05`. -/
def SEM_PARTIAL_WORD_MATCH_BOOST : ℚ := 5 / 100

/-- `SemanticSearchSettings.DESCRIPTION_MATCH_BOOST` — `0.05`. -/
def SEM_DESCRIPTION_MATCH_BOOST : ℚ := 5 / 100

/-- `validateLimit` from `src/config/vectordb.settings.ts`: clamp to
`[MIN_LIMIT, MAX_LIMIT] = [1, 100]`. -/
def validateLimit (limit : ℕ) : ℕ := max 1 (min 100 limit)

/-- A row of the candidate `SELECT`: the record plus its raw distance.  The
query also projects `similarity = 1 - distance` (`rowSim`). -/
structure CandidateRow where
  item : MediaItem
  distance : ℚ

/-- The `similarity` column computed by the candidate `SELECT`
(`1 - (embedding <=> query)`). -/
def rowSim (r : CandidateRow) : ℚ := 1 - r.distance

/-- One entry of `semanticSearch`'s result list. -/
structure RankedResult where
  item : MediaItem
  similarity : ℚ
  distance : ℚ
  relevanceScore : ℚ
  semanticMatch : Bool
deriving DecidableEq

/-- The `searchMetadata` object of the semantic-search response
(`effectiveMinSimilarity` is absent on the two early-return paths). -/
structure SearchMetadata where
  totalCandidates : ℕ
  filteredResults : ℕ
  averageSimilarity : ℚ
  effectiveMinSimilarity : Option ℚ
deriving DecidableEq

/-- The diagnostic `helpfulMessage` templates of `semanticSearch`
(lines 1773–1790); the interpolated fragments are log-level detail. -/
inductive DiagnosticMsg
  | noEmbeddings     -- "No items have embeddings. …"
  | noResultsClosest -- "No results found. Closest match has …"
  | noItemsInDb      -- "No items found in database. …"
  | lowConfidence    -- "Found N results, but they have low similarity …"
deriving DecidableEq

/-- The semantic-search response (without the query echo and the optional
related-concept list, which no claim concerns). -/
structure SemanticSearchOutput where
  results : List RankedResult
  helpfulMessage : Option DiagnosticMsg
  searchMetadata : SearchMetadata
deriving DecidableEq

/-- `Math.round(x * 1000) / 1000` (JavaScript `Math.round` rounds half
toward positive infinity, as does Mathlib's `round`). -/
def roundTo3 (x : ℚ) : ℚ := (round (x * 1000) : ℤ) / 1000

/-- `calculateRelevanceScore`: additive context boost for title
containment, partial title word overlap and description containment,
capped at 1.  Note the word split here is the literal `split(' ')`. -/
def calculateRelevanceScore (item : MediaItem) (query : Str) (baseSimilarity : ℚ) : ℚ :=
  let queryLower := lowerS query
  let score₁ :=
    if ¬ item.title.isEmpty then
      let titleLower := lowerS item.title
      let s := if containsS titleLower queryLower
        then baseSimilarity + SEM_TITLE_MATCH_BOOST else baseSimilarity
      let queryWords := splitOnSpace queryLower
      let titleWords := splitOnSpace titleLower
      let matchingWords := queryWords.filter
        (fun qw => titleWords.any (fun tw => containsS tw qw || containsS qw tw))
      if matchingWords.length > 0 then
        s + ((matchingWords.length : ℚ) / (queryWords.length : ℚ)) *
          SEM_PARTIAL_WORD_MATCH_BOOST
      else s
    else baseSimilarity
  let score₂ :=
    if truthy item.description &&
        containsS (lowerS (item.description.getD [])) queryLower then
      score₁ + SEM_DESCRIPTION_MATCH_BOOST
    else score₁
  min 1 score₂

/-- The per-candidate scoring step of `semanticSearch` (lines 1726–1760):
type-aware boosting, optional context boost, strong-match flag. -/
def scoreRow (now : ℚ) (query : Str) (contextBoost : Bool) (r : CandidateRow) :
    RankedResult :=
  let boosted := applyTypeAwareBoosting MediaMatchingSettings now r.item query (rowSim r)
  { item := r.item
    similarity := boosted
    distance := r.distance
    relevanceScore :=
      if contextBoost then calculateRelevanceScore r.item query boosted else boosted
    semanticMatch := decide (boosted ≥ STRONG_MATCH_THRESHOLD) }

/-- The progressive-threshold loop of `semanticSearch` (lines 1707–1714):
re-filter at each step, stop at the first non-empty result; when no step
succeeds the last filter (and threshold) stand. -/
def relaxLoop (allResults : List CandidateRow) :
    List ℚ → (List CandidateRow × ℚ) → (List CandidateRow × ℚ)
  | [], last => last
  | t :: ts, _ =>
    let f := allResults.filter (fun r => rowSim r ≥ t)
    if ¬ f.isEmpty then (f, t) else relaxLoop allResults ts (f, t)

/-- The pure post-retrieval pipeline of `semanticSearch` (lines 1695–1761):
adaptive distance filter, threshold filter with progressive relaxation and
unconditional fallback, truncation to the validated limit, scoring, sort by
relevance score descending.  Returns the result list and the effective
minimum similarity. -/
def semanticProcessRows (now : ℚ) (query : Str) (validatedLimit : ℕ)
    (minSimilarity : ℚ) (contextBoost : Bool) (allCandidates : List CandidateRow) :
    List RankedResult × ℚ :=
  let allResults := allCandidates.filter
    (fun r => r.distance ≤ SEMANTIC_SEARCH_ADAPTIVE_THRESHOLD)
  let f0 := allResults.filter (fun r => rowSim r ≥ minSimilarity)
  let (filtered, eff) :=
    if f0.isEmpty ∧ ¬ allResults.isEmpty then
      let (f1, eff1) := relaxLoop allResults PROGRESSIVE_THRESHOLDS (f0, minSimilarity)
      if f1.isEmpty ∧ ¬ allCandidates.isEmpty then (allCandidates.take validatedLimit, 0)
      else (f1, eff1)
    else (f0, minSimilarity)
  let scored := (filtered.take validatedLimit).map (scoreRow now query contextBoost)
  let sorted := scored.mergeSort
    (fun a b => decide (b.relevanceScore ≤ a.relevanceScore))
  (sorted, eff)

/-- Error payloads of the external calls. -/
abbrev ErrT := Str

/-- `semanticSearch`: the embedding call and the embedding-count query run
before the `try` block (their failures propagate); a failure of the
candidate `SELECT` is caught and converted into an empty success response;
otherwise the pure pipeline runs and diagnostic messages are attached. -/
def semanticSearch (now : ℚ) (query : Str) (limit : ℕ) (minSimilarity : ℚ)
    (contextBoost : Bool) (embedResult : Except ErrT (List ℚ))
    (embeddingCountResult : Except ErrT ℕ)
    (storeResult : Except ErrT (List CandidateRow)) :
    Except ErrT SemanticSearchOutput := do
  let validatedLimit := validateLimit limit
  let _ ← embedResult
  let embeddingCount ← embeddingCountResult
  if embeddingCount = 0 then
    return { results := []
             helpfulMessage := none
             searchMetadata :=
               { totalCandidates := 0, filteredResults := 0
                 averageSimilarity := 0, effectiveMinSimilarity := none } }
  match storeResult with
  | .error _ =>
    -- the `catch` block (lines 1805–1817): log and return an empty response
    return { results := []
             helpfulMessage := none
             searchMetadata :=
               { totalCandidates := 0, filteredResults := 0
                 averageSimilarity := 0, effectiveMinSimilarity := none } }
  | .ok allCandidates =>
    let (sorted, eff) :=
      semanticProcessRows now query validatedLimit minSimilarity contextBoost allCandidates
    let averageSimilarity :=
      if sorted.length > 0 then
        (sorted.map (fun r => r.similarity)).sum / (sorted.length : ℚ)
      else 0
    let helpfulMessage : Option DiagnosticMsg :=
      if sorted.isEmpty then
        if embeddingCount = 0 then some .noEmbeddings
        else if ¬ allCandidates.isEmpty then some .noResultsClosest
        else some .noItemsInDb
      else if eff = 0 ∧ ¬ sorted.isEmpty then
        let avgSim := (sorted.map (fun r => r.similarity)).sum / (sorted.length : ℚ)
        if avgSim < 2 / 10 then some .lowConfidence else none
      else none
    return { results := sorted
             helpfulMessage := helpfulMessage
             searchMetadata :=
               { totalCandidates := allCandidates.length
                 filteredResults := sorted.length
                 averageSimilarity := roundTo3 averageSimilarity
                 effectiveMinSimilarity := some eff } }

/-!
## Recommendation combinator — `src/services/recommendationService.ts`.
The record-store fetches and the vector-store `SELECT` are external and
enter as parameters; the human-readable `reason` strings are log-level and
omitted from the result records.
-/

/-- One recommendation entry (`RecommendationResult` minus the log-only
`reason` string). -/
structure RecommendationRec where
  item : MediaItem
  similarity : ℚ
  distance : ℚ
  recommendationScore : ℚ
deriving DecidableEq

/-- `findSimilarItems` (lines 409–468): converts store rows to
recommendation entries with `recommendationScore = similarity`; a failure of
the `SELECT` is caught and converted into an empty list. -/
def findSimilarItems (storeResult : Except ErrT (List CandidateRow)) :
    List RecommendationRec :=
  match storeResult with
  | .error _ => []
  | .ok rows => rows.map (fun r =>
      { item := r.item, similarity := rowSim r, distance := r.distance
        recommendationScore := rowSim r })

/-- The local `thresholds` array of the three recommendation strategies
(`[0.2, 0.1, 0.05, 0.0]`). -/
def REC_PROGRESSIVE_THRESHOLDS : List ℚ := [2 / 10, 1 / 10, 5 / 100, 0]

/-- The progressive-threshold loop shared by the strategies (e.g. lines
95–101): re-filter the full candidate list at each step, stop as soon as
`limit` results are reached; the last filter stands when no step reaches
it. -/
def recRelaxLoop (allResults : List RecommendationRec) (limit : ℕ) :
    List ℚ → List RecommendationRec → List RecommendationRec
  | [], last => last
  | t :: ts, _ =>
    let f := allResults.filter (fun r => r.similarity ≥ t)
    if f.length ≥ limit then f else recRelaxLoop allResults limit ts f

/-- Threshold filter, relaxation and truncation shared by the item-based,
multi-item and content-based strategies (lines 92–104 and their copies). -/
def filterAndRelax (allResults : List RecommendationRec) (limit : ℕ)
    (minSimilarity : ℚ) : List RecommendationRec :=
  let f0 := allResults.filter (fun r => r.similarity ≥ minSimilarity)
  let f :=
    if f0.length < limit ∧ ¬ allResults.isEmpty then
      recRelaxLoop allResults limit REC_PROGRESSIVE_THRESHOLDS f0
    else f0
  f.take limit

/-- `getItemBasedRecommendations` (lines 66–128), reduced to its
decision-relevant skeleton: source-record and embedding checks, then the
shared filter/relax/truncate over the fetched candidates, with
`recommendationScore := similarity`. -/
def getItemBasedRecommendations (sourceItem : Option MediaItem)
    (storeResult : Except ErrT (List CandidateRow)) (limit : ℕ)
    (minSimilarity : ℚ) : Except ErrT (List RecommendationRec) :=
  match sourceItem with
  | none => .error ("Source item not found".toList)
  | some item =>
    if item.embedding.isNone then
      .error ("Source item does not have an embedding".toList)
    else
      let allResults := findSimilarItems storeResult
      let filtered := filterAndRelax allResults limit minSimilarity
      .ok (filtered.map (fun r => { r with recommendationScore := r.similarity }))

/-- `calculateAverageEmbedding` (lines 474–516): per-dimension sums over the
parsed embeddings, divided by their count; the dimension is that of the
first embedding.  (The JSON-parsing of the stored text is representation
glue: the model receives embeddings already parsed; an index beyond a
shorter embedding — `NaN` in JavaScript, excluded by every claim — is read
as 0.) -/
def calculateAverageEmbedding (items : List MediaItem) : Except ErrT (List ℚ) :=
  if items.isEmpty then
    .error ("Cannot calculate average embedding from empty array".toList)
  else
    match items.filterMap (fun i => i.embedding) with
    | [] => .error ("No valid embeddings found in items".toList)
    | e0 :: rest =>
      let dimension := e0.length
      let sums := (e0 :: rest).foldl
        (fun acc emb => (List.range dimension).map
          (fun i => acc.getD i 0 + emb.getD i 0))
        (List.replicate dimension (0 : ℚ))
      .ok (sums.map (fun v => v / (((e0 :: rest).length : ℕ) : ℚ)))

/-- The source-vector computation of `getMultiItemRecommendations`
(lines 139–166): validation of the id list and fetched records, restriction
to records carrying embeddings, then the average embedding. -/
def getMultiItemSourceVector (itemIds : List Str) (sourceItems : List MediaItem) :
    Except ErrT (List ℚ) :=
  if itemIds.isEmpty then
    .error ("At least one source item ID is required".toList)
  else if sourceItems.isEmpty then
    .error ("No source items found".toList)
  else
    let itemsWithEmbeddings := sourceItems.filter (fun i => i.embedding.isSome)
    if itemsWithEmbeddings.isEmpty then
      .error ("None of the source items have embeddings".toList)
    else calculateAverageEmbedding itemsWithEmbeddings

/-- Specification-side definition (§4.6, §8 of the spec): the element-wise
arithmetic mean of a family of equal-dimension vectors. -/
def specCentroid (embs : List (List ℚ)) (dimension : ℕ) : List ℚ :=
  (List.range dimension).map
    (fun i => ((embs.map (fun e => e.getD i 0)).sum) / ((embs.length : ℕ) : ℚ))

/-- The item-based pass of `getHybridRecommendations` (lines 329–343): merge
one recommendation into the accumulated id-keyed map, weighting by
`weights.itemBased`; an entry already present (a duplicate id within the
item-based results) is re-weighted as the source does. -/
def upsertItemRec (wItem : ℚ) (m : List RecommendationRec)
    (rec : RecommendationRec) : List RecommendationRec :=
  if m.any (fun x => decide (x.item.id = rec.item.id)) then
    m.map (fun x =>
      if x.item.id = rec.item.id then
        { x with recommendationScore :=
            x.recommendationScore * wItem + rec.recommendationScore * wItem }
      else x)
  else m ++ [{ rec with recommendationScore := rec.recommendationScore * wItem }]

/-- The content-based pass of `getHybridRecommendations` (lines 359–373):
an entry already present receives `existing + rec.score × weights.contentBased`;
a new entry enters with `rec.score × weights.contentBased`. -/
def upsertContentRec (wContent : ℚ) (m : List RecommendationRec)
    (rec : RecommendationRec) : List RecommendationRec :=
  if m.any (fun x => decide (x.item.id = rec.item.id)) then
    m.map (fun x =>
      if x.item.id = rec.item.id then
        { x with recommendationScore :=
            x.recommendationScore + rec.recommendationScore * wContent }
      else x)
  else m ++ [{ rec with recommendationScore := rec.recommendationScore * wContent }]

/-- The id-keyed map accumulated by `getHybridRecommendations` (the JS `Map`
in insertion order): the item-based recommendations merged first, then the
content-based ones. -/
def hybridMergedMap (wItem wContent : ℚ)
    (itemRecs contentRecs : List RecommendationRec) : List RecommendationRec :=
  (contentRecs.foldl (upsertContentRec wContent)
    (itemRecs.foldl (upsertItemRec wItem) []))

/-- `getHybridRecommendations` (lines 296–403): validation, the two
sub-strategy calls (each with its failure caught and skipped — the
`catch`/`console.warn` blocks), the id-keyed merge, sort by recommendation
score descending, truncation to the limit. -/
def getHybridRecommendations (itemIds : List Str) (queryGiven : Bool)
    (wItem wContent : ℚ)
    (itemBasedOutcome contentOutcome : Except ErrT (List RecommendationRec))
    (limit : ℕ) : Except ErrT (List RecommendationRec) :=
  if itemIds.isEmpty ∧ ¬ queryGiven then
    .error ("Either itemIds or query must be provided for hybrid recommendations".toList)
  else
    let itemRecs :=
      if ¬ itemIds.isEmpty then
        match itemBasedOutcome with
        | .ok recs => recs
        | .error _ => []
      else []
    let contentRecs :=
      if queryGiven then
        match contentOutcome with
        | .ok recs => recs
        | .error _ => []
      else []
    let merged := hybridMergedMap wItem wContent itemRecs contentRecs
    .ok ((merged.mergeSort
      (fun a b => decide (b.recommendationScore ≤ a.recommendationScore))).take limit)

/-!
## Claims about the semantic-search orchestration (C3, C4, C6)
-/

/-- C3 (code-bug demonstration): a query against a corpus in which no record
has an embedding takes the early return — the result list is empty and
`totalCandidates = 0` as claimed, but `helpfulMessage` is `none`: the
`No items have embeddings…` text assigned later (line 1777) sits behind the
early return and is unreachable. -/
theorem c3_zero_embedding_no_message (now : ℚ) (query : Str) (limit : ℕ)
    (minSimilarity : ℚ) (contextBoost : Bool) (emb : List ℚ)
    (store : Except ErrT (List CandidateRow)) :
    semanticSearch now query limit minSimilarity contextBoost (.ok emb) (.ok 0) store =
      .ok { results := []
            helpfulMessage := none
            searchMetadata :=
              { totalCandidates := 0, filteredResults := 0
                averageSimilarity := 0, effectiveMinSimilarity := none } } := rfl

/-- C4, counterexample: a failing candidate `SELECT` does not propagate — the
`catch` block converts it into an empty success response with zeroed
metadata, contradicting the claimed typed-failure propagation. -/
theorem c4_store_error_swallowed_counterexample :
    semanticSearch 0 ("law".toList) 10 (3 / 10) true (.ok []) (.ok 3)
        (.error ("connection refused".toList)) =
      .ok { results := []
            helpfulMessage := none
            searchMetadata :=
              { totalCandidates := 0, filteredResults := 0
                averageSimilarity := 0, effectiveMinSimilarity := none } } := rfl

/-- C4 (amended): embedding-provider failures (issued before the `try`)
propagate to the caller, but a vector-store failure is caught and becomes an
empty success response in `semanticSearch`, an empty candidate list in
`findSimilarItems`, and a skipped sub-strategy (partial degradation, not an
abort) in `getHybridRecommendations`. -/
theorem c4_error_propagation_amended :
    (∀ (now : ℚ) (query : Str) (limit : ℕ) (minSim : ℚ) (cb : Bool) (e : ErrT)
       (countR : Except ErrT ℕ) (storeR : Except ErrT (List CandidateRow)),
       semanticSearch now query limit minSim cb (.error e) countR storeR = .error e) ∧
    (∀ (now : ℚ) (query : Str) (limit : ℕ) (minSim : ℚ) (cb : Bool)
       (emb : List ℚ) (count : ℕ) (e : ErrT),
       semanticSearch now query limit minSim cb (.ok emb) (.ok (count + 1)) (.error e) =
         .ok { results := []
               helpfulMessage := none
               searchMetadata :=
                 { totalCandidates := 0, filteredResults := 0
                   averageSimilarity := 0, effectiveMinSimilarity := none } }) ∧
    (∀ e : ErrT, findSimilarItems (.error e) = []) ∧
    (∀ (id0 : Str) (rest : List Str) (wI wC : ℚ) (e : ErrT)
       (recsC : List RecommendationRec) (limit : ℕ),
       getHybridRecommendations (id0 :: rest) true wI wC (.error e) (.ok recsC) limit =
         .ok (((hybridMergedMap wI wC [] recsC).mergeSort
           (fun a b => decide (b.recommendationScore ≤ a.recommendationScore))).take limit)) := by
  refine ⟨fun _ _ _ _ _ _ _ _ => rfl, fun _ _ _ _ _ _ _ _ => rfl, fun _ => rfl, ?_⟩
  intro id0 rest wI wC e recsC limit
  simp [getHybridRecommendations]

/-- Record whose distance exceeds the adaptive threshold (cosine distance
3/2, similarity −1/2). -/
def itemFar : MediaItem :=
  { id := ("far".toList), title := ("far doc".toList), type := MediaTypeT.text }

/-- Candidate row for `itemFar`. -/
def rowFar : CandidateRow := { item := itemFar, distance := 3 / 2 }

/-- Recommendation entry for `itemFar` (similarity −1/2). -/
def recFar : RecommendationRec :=
  { item := itemFar, similarity := -(1 / 2), distance := 3 / 2
    recommendationScore := -(1 / 2) }

/-- C6, counterexample: with a single candidate of similarity −1/2, the
initial threshold and every relaxation step filter to the empty set while
the candidate pool is non-empty — yet `semanticSearch` returns no results
and reports the original threshold 0.3 (not the top candidate with
effective threshold 0), and the recommendation filter likewise returns the
empty set. -/
theorem c6_no_fallback_counterexample :
    (PROGRESSIVE_THRESHOLDS.all
      (fun t => ([rowFar].filter (fun r => rowSim r ≥ t)).isEmpty)) = true ∧
    ([rowFar].filter (fun r => rowSim r ≥ 3 / 10)).isEmpty = true ∧
    semanticSearch 0 ("law".toList) 5 (3 / 10) true (.ok []) (.ok 1) (.ok [rowFar]) =
      .ok { results := []
            helpfulMessage := some .noResultsClosest
            searchMetadata :=
              { totalCandidates := 1, filteredResults := 0
                averageSimilarity := 0, effectiveMinSimilarity := some (3 / 10) } } ∧
    filterAndRelax [recFar] 5 (3 / 10) = [] := by
  refine ⟨?_, ?_, ?_, ?_⟩
  · norm_num [PROGRESSIVE_THRESHOLDS, rowSim, rowFar, List.filter]
  · norm_num [rowSim, rowFar, List.filter]
  · norm_num [semanticSearch, semanticProcessRows, rowSim, rowFar,
      SEMANTIC_SEARCH_ADAPTIVE_THRESHOLD, roundTo3, List.filter, Bind.bind, Except.bind,
      pure, Except.pure]
  · norm_num [filterAndRelax, recRelaxLoop, REC_PROGRESSIVE_THRESHOLDS, recFar,
      List.filter]

/-- The relaxation loop yields a non-empty set as soon as any step's filter
is non-empty. -/
lemma relaxLoop_mem_nonempty (allResults : List CandidateRow) :
    ∀ (ts : List ℚ) (acc : List CandidateRow × ℚ),
      (∃ t ∈ ts, ¬ (allResults.filter (fun r => rowSim r ≥ t)).isEmpty) →
      ¬ (relaxLoop allResults ts acc).1.isEmpty
  | [], acc, h => by simp at h
  | t :: ts, acc, h => by
    rw [relaxLoop]
    by_cases hf : ¬ (allResults.filter (fun r => rowSim r ≥ t)).isEmpty
    · simp only [if_pos hf]
      exact hf
    · simp only [if_neg hf]
      rcases h with ⟨t', ht', hne⟩
      rcases List.mem_cons.mp ht' with rfl | ht'
      · exact absurd hne (fun h' => hf h')
      · exact relaxLoop_mem_nonempty allResults ts _ ⟨t', ht', hne⟩

/-- When every step's filter is empty, the recommendation relaxation loop
returns the empty set. -/
lemma recRelaxLoop_all_empty (allRecs : List RecommendationRec) (limit : ℕ) :
    ∀ (ts : List ℚ),
      (∀ t ∈ ts, allRecs.filter (fun r => r.similarity ≥ t) = []) →
      recRelaxLoop allRecs limit ts [] = []
  | [], _ => by rw [recRelaxLoop]
  | t :: ts, h => by
    rw [recRelaxLoop]
    have ht := h t (List.mem_cons_self t ts)
    rw [ht]
    by_cases hl : ([] : List RecommendationRec).length ≥ limit
    · simp only [if_pos hl]
    · simp only [if_neg hl]
      exact recRelaxLoop_all_empty allRecs limit ts
        (fun t' ht' => h t' (List.mem_cons_of_mem t ht'))

/-- The final take/score/sort stage keeps a non-empty list non-empty for a
positive limit. -/
lemma sorted_take_nonempty (now : ℚ) (query : Str) (cb : Bool)
    (lim : ℕ) (hlim : 0 < lim) (l : List CandidateRow) (hl : ¬ l.isEmpty) :
    ¬ (((l.take lim).map (scoreRow now query cb)).mergeSort
        (fun a b => decide (b.relevanceScore ≤ a.relevanceScore))).isEmpty := by
  intro h
  rw [List.isEmpty_iff] at h hl
  have hlen := congrArg List.length h
  rw [List.length_mergeSort, List.length_map, List.length_take] at hlen
  simp only [List.length_nil] at hlen
  rcases Nat.min_eq_zero_iff.mp hlen with h' | h'
  · omega
  · exact hl (List.length_eq_zero.mp h')

/-- C6 (amended): when some candidate passes the adaptive distance filter,
the relaxation sequence always terminates with a non-empty result (its final
step 0.0 accepts that whole pool, so the unconditional top-candidates
fallback reporting effective threshold 0 is unreachable); when no candidate
passes the adaptive filter — every similarity negative — the search returns
the empty set and reports the caller's original threshold, not the top
candidates; the recommendation strategies likewise return the empty set
(and report no effective threshold at all) when every candidate similarity
is below every relaxation step. -/
theorem c6_relaxation_fallback_amended (now : ℚ) (query : Str)
    (validatedLimit : ℕ) (minSim : ℚ) (cb : Bool) (cands : List CandidateRow)
    (hlim : 0 < validatedLimit) :
    (¬ (cands.filter (fun r => r.distance ≤ SEMANTIC_SEARCH_ADAPTIVE_THRESHOLD)).isEmpty →
       ¬ (semanticProcessRows now query validatedLimit minSim cb cands).1.isEmpty) ∧
    ((cands.filter (fun r => r.distance ≤ SEMANTIC_SEARCH_ADAPTIVE_THRESHOLD)).isEmpty →
       (semanticProcessRows now query validatedLimit minSim cb cands).1 = [] ∧
       (semanticProcessRows now query validatedLimit minSim cb cands).2 = minSim) ∧
    (∀ (allRecs : List RecommendationRec) (limit : ℕ) (recMinSim : ℚ),
       0 ≤ recMinSim → (∀ r ∈ allRecs, r.similarity < 0) →
       filterAndRelax allRecs limit recMinSim = []) := by
  refine ⟨?_, ?_, ?_⟩
  · intro hne
    rw [semanticProcessRows]
    by_cases h0 : ((cands.filter (fun r => r.distance ≤ SEMANTIC_SEARCH_ADAPTIVE_THRESHOLD)).filter
        (fun r => rowSim r ≥ minSim)).isEmpty
    · have hmem : ∃ t ∈ PROGRESSIVE_THRESHOLDS,
          ¬ ((cands.filter (fun r => r.distance ≤ SEMANTIC_SEARCH_ADAPTIVE_THRESHOLD)).filter
            (fun r => rowSim r ≥ t)).isEmpty := by
        refine ⟨0, by norm_num [PROGRESSIVE_THRESHOLDS], ?_⟩
        have hall : (cands.filter (fun r => r.distance ≤ SEMANTIC_SEARCH_ADAPTIVE_THRESHOLD)).filter
            (fun r => rowSim r ≥ (0 : ℚ)) =
            cands.filter (fun r => r.distance ≤ SEMANTIC_SEARCH_ADAPTIVE_THRESHOLD) := by
          rw [List.filter_eq_self]
          intro r hr
          have hd := List.of_mem_filter hr
          simp only [decide_eq_true_eq] at hd ⊢
          simp only [SEMANTIC_SEARCH_ADAPTIVE_THRESHOLD] at hd
          simp only [rowSim]
          linarith
        rw [hall]
        exact hne
      have hrelax := relaxLoop_mem_nonempty
        (cands.filter (fun r => r.distance ≤ SEMANTIC_SEARCH_ADAPTIVE_THRESHOLD))
        PROGRESSIVE_THRESHOLDS
        ((cands.filter (fun r => r.distance ≤ SEMANTIC_SEARCH_ADAPTIVE_THRESHOLD)).filter
          (fun r => rowSim r ≥ minSim), minSim) hmem
      rcases hpr : relaxLoop
          (cands.filter (fun r => r.distance ≤ SEMANTIC_SEARCH_ADAPTIVE_THRESHOLD))
          PROGRESSIVE_THRESHOLDS
          ((cands.filter (fun r => r.distance ≤ SEMANTIC_SEARCH_ADAPTIVE_THRESHOLD)).filter
            (fun r => rowSim r ≥ minSim), minSim) with ⟨f1, eff1⟩
      rw [hpr] at hrelax
      have hcond2 : ¬ (f1.isEmpty = true ∧ ¬ cands.isEmpty = true) :=
        fun hc => hrelax hc.1
      simp only [hpr, if_pos (And.intro h0 hne), if_neg hcond2]
      exact sorted_take_nonempty now query cb validatedLimit hlim f1 hrelax
    · have hcond : ¬ (((cands.filter
          (fun r => r.distance ≤ SEMANTIC_SEARCH_ADAPTIVE_THRESHOLD)).filter
            (fun r => rowSim r ≥ minSim)).isEmpty = true ∧
          ¬ (cands.filter
            (fun r => r.distance ≤ SEMANTIC_SEARCH_ADAPTIVE_THRESHOLD)).isEmpty = true) :=
        fun hc => h0 hc.1
      simp only [if_neg hcond]
      exact sorted_take_nonempty now query cb validatedLimit hlim _ h0
  · intro hemp
    rw [List.isEmpty_iff] at hemp
    rw [semanticProcessRows]
    simp [hemp]
  · intro allRecs limit recMinSim hmin hneg
    rw [filterAndRelax]
    have hf0 : allRecs.filter (fun r => r.similarity ≥ recMinSim) = [] := by
      rw [List.filter_eq_nil_iff]
      intro r hr
      simp only [decide_eq_true_eq, not_le]
      linarith [hneg r hr]
    rw [hf0]
    by_cases hcond : ([] : List RecommendationRec).length < limit ∧ ¬ allRecs.isEmpty = true
    · rw [if_pos hcond]
      rw [recRelaxLoop_all_empty allRecs limit REC_PROGRESSIVE_THRESHOLDS ?_]
      · exact List.take_nil
      · intro t ht
        rw [List.filter_eq_nil_iff]
        intro r hr
        simp only [decide_eq_true_eq, not_le]
        have ht0 : (0 : ℚ) ≤ t := by
          simp only [REC_PROGRESSIVE_THRESHOLDS, List.mem_cons,
            List.not_mem_nil, or_false] at ht
          rcases ht with rfl | rfl | rfl | rfl <;> norm_num
        linarith [hneg r hr]
    · rw [if_neg hcond]
      exact List.take_nil

/-- Candidate row within the adaptive distance threshold. -/
def rowNear : CandidateRow := { item := itemDoc, distance := 1 / 2 }

/-- C6, witness: the amended relaxation theorem applied at a one-candidate
pool within the adaptive threshold (a non-empty result set is produced). -/
theorem c6_relaxation_fallback_amended_witness :
    ¬ (semanticProcessRows 0 ("law".toList) 1 (3 / 10) true [rowNear]).1.isEmpty :=
  (c6_relaxation_fallback_amended 0 ("law".toList) 1 (3 / 10) true [rowNear]
      (by norm_num)).1
    (by norm_num [rowNear, SEMANTIC_SEARCH_ADAPTIVE_THRESHOLD, List.filter])


/-!
## Claims about the recommendation combinator (C7, C5)
-/

/-- Reading a list back from its indexed entries. -/
lemma map_range_getD (l : List ℚ) :
    (List.range l.length).map (fun i => l.getD i 0) = l := by
  apply List.ext_getElem
  · simp
  · intro i h1 h2
    simp only [List.getElem_map, List.getElem_range]
    rw [List.getD_eq_getElem]

/-- Closed form of the per-dimension accumulation loop of
`calculateAverageEmbedding`. -/
lemma fold_sum (dim : ℕ) :
    ∀ (embs : List (List ℚ)) (acc : List ℚ), acc.length = dim →
      embs.foldl (fun acc emb => (List.range dim).map
        (fun i => acc.getD i 0 + emb.getD i 0)) acc
      = (List.range dim).map
          (fun i => acc.getD i 0 + (embs.map (fun e => e.getD i 0)).sum)
  | [], acc, hacc => by
    simp only [List.foldl_nil, List.map_nil, List.sum_nil, add_zero]
    rw [← hacc]
    exact (map_range_getD acc).symm
  | e :: embs, acc, hacc => by
    rw [List.foldl_cons]
    have hlen : ((List.range dim).map
        (fun i => acc.getD i 0 + e.getD i 0)).length = dim := by simp
    rw [fold_sum dim embs _ hlen]
    apply List.map_congr_left
    intro i hi
    rw [List.mem_range] at hi
    have hlt : i < ((List.range dim).map
        (fun j => acc.getD j 0 + e.getD j 0)).length := by simp [hi]
    have hget : ((List.range dim).map
        (fun j => acc.getD j 0 + e.getD j 0)).getD i 0 = acc.getD i 0 + e.getD i 0 := by
      rw [List.getD_eq_getElem _ _ hlt, List.getElem_map, List.getElem_range]
    rw [hget]
    simp only [List.map_cons, List.sum_cons]
    ring

/-- Restricting to records with an embedding does not change the list of
embeddings collected. -/
lemma filterMap_filter_isSome (items : List MediaItem) :
    (items.filter (fun i => i.embedding.isSome)).filterMap (fun i => i.embedding)
      = items.filterMap (fun i => i.embedding) := by
  induction items with
  | nil => rfl
  | cons i items ih =>
    cases hh : i.embedding with
    | none => simp [List.filter_cons, List.filterMap_cons, hh, ih]
    | some e => simp [List.filter_cons, List.filterMap_cons, hh, ih]

/-- `calculateAverageEmbedding` computes exactly the specification-side
per-dimension arithmetic mean (dimension taken from the first embedding). -/
lemma calculateAverageEmbedding_eq_centroid (items : List MediaItem)
    (e0 : List ℚ) (rest : List (List ℚ))
    (h : items.filterMap (fun i => i.embedding) = e0 :: rest) :
    calculateAverageEmbedding items = .ok (specCentroid (e0 :: rest) e0.length) := by
  have hne : ¬ items.isEmpty := by
    intro hemp
    rw [List.isEmpty_iff] at hemp
    subst hemp
    rw [List.filterMap_nil] at h
    exact List.cons_ne_nil e0 rest h.symm
  rw [calculateAverageEmbedding, if_neg hne]
  split
  · rename_i heq
    rw [h] at heq
    exact (List.cons_ne_nil _ _ heq).elim
  · rename_i e0' rest' heq
    rw [h] at heq
    injection heq with h1 h2
    subst h1
    subst h2
    have hrep : (List.replicate e0.length (0 : ℚ)).length = e0.length :=
      List.length_replicate _ _
    dsimp only
    rw [fold_sum e0.length (e0 :: rest) _ hrep]
    congr 1
    rw [specCentroid, List.map_map]
    apply List.map_congr_left
    intro i hi
    rw [List.mem_range] at hi
    have hlt : i < (List.replicate e0.length (0 : ℚ)).length := by simp [hi]
    have hz : (List.replicate e0.length (0 : ℚ)).getD i 0 = 0 := by
      rw [List.getD_eq_getElem _ _ hlt, List.getElem_replicate]
    simp only [Function.comp_apply, hz, zero_add]

/-- C7: for multi-item recommendations over source records whose embeddings
all share the first embedding's dimension, the source vector used for
retrieval is the element-wise arithmetic mean of those embeddings, and the
operation fails with an error when none of the source records has an
embedding (or the id/record lists are empty). -/
theorem c7_multi_item_centroid :
    (∀ (itemIds : List Str) (sourceItems : List MediaItem)
       (e0 : List ℚ) (rest : List (List ℚ)),
       ¬ itemIds.isEmpty →
       sourceItems.filterMap (fun i => i.embedding) = e0 :: rest →
       (∀ e ∈ e0 :: rest, e.length = e0.length) →
       getMultiItemSourceVector itemIds sourceItems =
         .ok (specCentroid (e0 :: rest) e0.length)) ∧
    (∀ (itemIds : List Str) (sourceItems : List MediaItem),
       (∀ i ∈ sourceItems, i.embedding = none) →
       ∃ msg, getMultiItemSourceVector itemIds sourceItems = .error msg) := by
  constructor
  · intro itemIds src e0 rest hids h _hdim
    have hsrc : ¬ src.isEmpty := by
      intro hemp
      rw [List.isEmpty_iff] at hemp
      subst hemp
      rw [List.filterMap_nil] at h
      exact List.cons_ne_nil e0 rest h.symm
    have hmapW : (src.filter (fun i => i.embedding.isSome)).filterMap
        (fun i => i.embedding) = e0 :: rest := by
      rw [filterMap_filter_isSome, h]
    have hW : ¬ (src.filter (fun i => i.embedding.isSome)).isEmpty := by
      intro hemp
      rw [List.isEmpty_iff] at hemp
      rw [hemp, List.filterMap_nil] at hmapW
      exact List.cons_ne_nil e0 rest hmapW.symm
    rw [getMultiItemSourceVector, if_neg hids, if_neg hsrc, if_neg hW]
    exact calculateAverageEmbedding_eq_centroid _ e0 rest hmapW
  · intro itemIds src hall
    rw [getMultiItemSourceVector]
    by_cases h1 : itemIds.isEmpty
    · exact ⟨_, by rw [if_pos h1]⟩
    · by_cases h2 : src.isEmpty
      · exact ⟨_, by rw [if_neg h1, if_pos h2]⟩
      · have hW : (src.filter (fun i => i.embedding.isSome)).isEmpty := by
          rw [List.isEmpty_iff, List.filter_eq_nil_iff]
          intro i hi
          rw [hall i hi]
          simp
        exact ⟨_, by rw [if_neg h1, if_neg h2, if_pos hW]⟩

/-- Source record with embedding `[0.5, 0.3, 0.8]`. -/
def itemE1 : MediaItem :=
  { id := ("e1".toList), title := ("E1".toList), type := MediaTypeT.text
    embedding := some [1 / 2, 3 / 10, 8 / 10] }

/-- Source record with embedding `[0.4, 0.2, 0.9]`. -/
def itemE2 : MediaItem :=
  { id := ("e2".toList), title := ("E2".toList), type := MediaTypeT.text
    embedding := some [4 / 10, 2 / 10, 9 / 10] }

/-- C7, witness: the centroid of `[0.5,0.3,0.8]` and `[0.4,0.2,0.9]` is
`[0.45,0.25,0.85]`, and a source list without embeddings yields an error. -/
theorem c7_multi_item_centroid_witness :
    getMultiItemSourceVector [("a".toList)] [itemE1, itemE2] =
      .ok [9 / 20, 1 / 4, 17 / 20] ∧
    (∃ msg, getMultiItemSourceVector [("a".toList)] [itemDoc] = .error msg) := by
  constructor
  · have h := c7_multi_item_centroid.1 [("a".toList)] [itemE1, itemE2]
      [1 / 2, 3 / 10, 8 / 10] [[4 / 10, 2 / 10, 9 / 10]]
      (by decide) rfl (by intro e he; fin_cases he <;> rfl)
    rw [h]
    have hrange : List.range ([1 / 2, 3 / 10, 8 / 10] : List ℚ).length = [0, 1, 2] := by decide
    rw [specCentroid, hrange]
    norm_num [List.getD]
  · exact c7_multi_item_centroid.2 [("a".toList)] [itemDoc] (by decide)

lemma foldl_upsertItem (wI : ℚ) :
    ∀ (recs acc : List RecommendationRec),
      (∀ r ∈ recs, ∀ a ∈ acc, ¬ a.item.id = r.item.id) →
      ((recs.map (fun r => r.item.id)).Nodup) →
      recs.foldl (upsertItemRec wI) acc
        = acc ++ recs.map
            (fun r => { r with recommendationScore := r.recommendationScore * wI })
  | [], acc, _, _ => by simp
  | r :: recs, acc, hdisj, hnodup => by
    rw [List.foldl_cons]
    have hany : ¬ acc.any (fun x => decide (x.item.id = r.item.id)) = true := by
      simp only [List.any_eq_true, decide_eq_true_eq, not_exists, not_and]
      intro x hx
      exact hdisj r (List.mem_cons_self r recs) x hx
    have hstep : upsertItemRec wI acc r
        = acc ++ [{ r with recommendationScore := r.recommendationScore * wI }] := by
      rw [upsertItemRec, if_neg hany]
    rw [hstep]
    rw [List.map_cons] at hnodup
    have hnodup' := hnodup.of_cons
    have hhead : ∀ x ∈ recs, ¬ r.item.id = x.item.id := by
      intro x hx heq
      have := List.nodup_cons.mp hnodup |>.1
      exact this (heq ▸ List.mem_map_of_mem (fun r => r.item.id) hx)
    have hdisj2 : ∀ x ∈ recs,
        ∀ a ∈ acc ++ [{ r with recommendationScore := r.recommendationScore * wI }],
        ¬ a.item.id = x.item.id := by
      intro x hx a ha
      rcases List.mem_append.mp ha with ha | ha
      · exact hdisj x (List.mem_cons_of_mem r hx) a ha
      · rw [List.mem_singleton] at ha
        subst ha
        exact hhead x hx
    have hrec := foldl_upsertItem wI recs
      (acc ++ [{ r with recommendationScore := r.recommendationScore * wI }])
      hdisj2 hnodup'
    rw [hrec]
    simp

/-- Proof device: the update the content-based pass of the hybrid merge
applies to an entry already in the id-keyed map (no update when no
content-based recommendation shares the entry's id). -/
def contentAdjust (wC : ℚ) (recsC : List RecommendationRec)
    (x : RecommendationRec) : RecommendationRec :=
  match recsC.find? (fun rc => decide (rc.item.id = x.item.id)) with
  | some rc => { x with recommendationScore :=
      x.recommendationScore + rc.recommendationScore * wC }
  | none => x

/-- `contentAdjust` over no content recommendations is the identity. -/
lemma contentAdjust_nil (wC : ℚ) (x : RecommendationRec) :
    contentAdjust wC [] x = x := rfl

/-- `contentAdjust` at a matching head adds the weighted head score. -/
lemma contentAdjust_cons_of_eq (wC : ℚ) (rc : RecommendationRec)
    (rcs : List RecommendationRec) (x : RecommendationRec)
    (h : rc.item.id = x.item.id) :
    contentAdjust wC (rc :: rcs) x =
      { x with recommendationScore :=
          x.recommendationScore + rc.recommendationScore * wC } := by
  rw [contentAdjust, List.find?_cons_of_pos _ (by simp [h])]

/-- `contentAdjust` skips a non-matching head. -/
lemma contentAdjust_cons_of_ne (wC : ℚ) (rc : RecommendationRec)
    (rcs : List RecommendationRec) (x : RecommendationRec)
    (h : ¬ rc.item.id = x.item.id) :
    contentAdjust wC (rc :: rcs) x = contentAdjust wC rcs x := by
  rw [contentAdjust, contentAdjust, List.find?_cons_of_neg _ (by simp [h])]

/-- `contentAdjust` is the identity when no id matches. -/
lemma contentAdjust_of_none (wC : ℚ) (recsC : List RecommendationRec)
    (x : RecommendationRec) (h : ∀ rc ∈ recsC, ¬ rc.item.id = x.item.id) :
    contentAdjust wC recsC x = x := by
  rw [contentAdjust, List.find?_eq_none.mpr (by simpa using h)]

/-- Closed form of the content-based pass: entries of the accumulator are
adjusted by the unique content recommendation sharing their id (if any), and
content recommendations with fresh ids are appended with their score
weighted by `wContent`. -/
lemma foldl_upsertContent (wC : ℚ) :
    ∀ (recsC acc : List RecommendationRec),
      ((recsC.map (fun r => r.item.id)).Nodup) →
      recsC.foldl (upsertContentRec wC) acc
        = acc.map (contentAdjust wC recsC)
          ++ (recsC.filter
              (fun rc => ¬ acc.any (fun a => decide (a.item.id = rc.item.id)))).map
              (fun rc => { rc with recommendationScore := rc.recommendationScore * wC })
  | [], acc, _ => by
    simp only [List.foldl_nil, List.filter_nil, List.map_nil, List.append_nil]
    rw [List.map_congr_left (fun x _ => contentAdjust_nil wC x), List.map_id']
  | rc :: rcs, acc, hnodup => by
    have hnodup' : (rcs.map (fun r => r.item.id)).Nodup := by
      rw [List.map_cons] at hnodup
      exact hnodup.of_cons
    have hhead : ∀ x ∈ rcs, ¬ rc.item.id = x.item.id := by
      intro x hx heq
      rw [List.map_cons] at hnodup
      exact (List.nodup_cons.mp hnodup).1
        (heq ▸ List.mem_map_of_mem (fun r => r.item.id) hx)
    rw [List.foldl_cons]
    by_cases hany : acc.any (fun x => decide (x.item.id = rc.item.id)) = true
    · -- an entry with this id exists: in-place update
      set g := (fun x : RecommendationRec =>
        if x.item.id = rc.item.id then
          { x with recommendationScore :=
              x.recommendationScore + rc.recommendationScore * wC }
        else x) with hg
      have hid : ∀ a : RecommendationRec, (g a).item.id = a.item.id := by
        intro a
        rw [hg]
        by_cases h : a.item.id = rc.item.id
        · simp only [if_pos h]
        · simp only [if_neg h]
      have hstep : upsertContentRec wC acc rc = acc.map g := by
        rw [upsertContentRec, if_pos hany]
      rw [hstep]
      have hrec := foldl_upsertContent wC rcs (acc.map g) hnodup'
      rw [hrec, List.map_map]
      congr 1
      · apply List.map_congr_left
        intro x _
        by_cases hxid : x.item.id = rc.item.id
        · simp only [Function.comp_apply, hg, if_pos hxid]
          rw [contentAdjust_of_none wC rcs _ (by
            intro b hb heq
            exact hhead b hb ((heq.trans hxid).symm))]
          rw [contentAdjust_cons_of_eq wC rc rcs x hxid.symm]
        · simp only [Function.comp_apply, hg, if_neg hxid]
          rw [contentAdjust_cons_of_ne wC rc rcs x (fun h => hxid h.symm)]
      · rw [List.filter_cons]
        have hc : (decide ¬ (acc.any (fun a => decide (a.item.id = rc.item.id)) = true))
            = false := by simp [hany]
        rw [hc]
        simp only [Bool.false_eq_true, if_false]
        congr 1
        apply List.filter_congr
        intro rc' _
        have hqg : (fun a : RecommendationRec => decide (a.item.id = rc'.item.id)) ∘ g
            = fun a : RecommendationRec => decide (a.item.id = rc'.item.id) :=
          funext (fun a => by simp only [Function.comp_apply, hid a])
        rw [List.any_map, hqg]
    · -- no entry with this id: append a weighted copy
      have hstep : upsertContentRec wC acc rc
          = acc ++ [{ rc with recommendationScore := rc.recommendationScore * wC }] := by
        rw [upsertContentRec, if_neg hany]
      rw [hstep]
      have hrec := foldl_upsertContent wC rcs
        (acc ++ [{ rc with recommendationScore := rc.recommendationScore * wC }]) hnodup'
      rw [hrec, List.map_append]
      have haccnot : ∀ a ∈ acc, ¬ a.item.id = rc.item.id := by
        intro a ha
        simp only [List.any_eq_true, decide_eq_true_eq, not_exists, not_and] at hany
        exact hany a ha
      have h1 : acc.map (contentAdjust wC rcs) = acc.map (contentAdjust wC (rc :: rcs)) := by
        apply List.map_congr_left
        intro x hx
        rw [contentAdjust_cons_of_ne wC rc rcs x
          (fun h => haccnot x hx h.symm)]
      have h2 : [{ rc with recommendationScore := rc.recommendationScore * wC }].map
          (contentAdjust wC rcs)
          = [{ rc with recommendationScore := rc.recommendationScore * wC }] := by
        rw [List.map_singleton]
        rw [contentAdjust_of_none wC rcs _ (by
          intro b hb heq
          exact hhead b hb heq.symm)]
      have h3 : rcs.filter (fun rc' => ¬ ((acc ++
            [{ rc with recommendationScore := rc.recommendationScore * wC }]).any
            (fun a => decide (a.item.id = rc'.item.id))))
          = rcs.filter (fun rc' => ¬ (acc.any
            (fun a => decide (a.item.id = rc'.item.id)))) := by
        apply List.filter_congr
        intro rc' hrc'
        have : ([{ rc with recommendationScore := rc.recommendationScore * wC }].any
            (fun a => decide (a.item.id = rc'.item.id))) = false := by
          simp only [List.any_cons, List.any_nil, Bool.or_false, decide_eq_false_iff_not]
          exact fun h => hhead rc' hrc' h
        rw [List.any_append, this, Bool.or_false]
      have h4 : (rc :: rcs).filter (fun rc' => ¬ (acc.any
            (fun a => decide (a.item.id = rc'.item.id))))
          = rc :: rcs.filter (fun rc' => ¬ (acc.any
            (fun a => decide (a.item.id = rc'.item.id)))) := by
        rw [List.filter_cons]
        have : (decide ¬ (acc.any (fun a => decide (a.item.id = rc.item.id)) = true))
            = true := by simpa using hany
        rw [this]
        simp
      rw [h1, h2, h3, h4, List.map_cons, List.append_assoc]
      rfl

/-- With pairwise-distinct ids, `find?` by id returns the unique match. -/
lemma find?_id_eq_some :
    ∀ (recsC : List RecommendationRec),
      ((recsC.map (fun r => r.item.id)).Nodup) →
      ∀ (rC : RecommendationRec), rC ∈ recsC → ∀ (idv : Str), rC.item.id = idv →
      recsC.find? (fun rc => decide (rc.item.id = idv)) = some rC
  | [], _, rC, hmem, _, _ => absurd hmem (List.not_mem_nil rC)
  | b :: rest, hC, rC, hmem, idv, h => by
    by_cases hb : b.item.id = idv
    · rw [List.find?_cons_of_pos _ (by simp [hb])]
      have hbrc : b = rC :=
        List.inj_on_of_nodup_map hC (List.mem_cons_self b rest) hmem (by rw [hb, h])
      rw [hbrc]
    · rw [List.find?_cons_of_neg _ (by simp [hb])]
      have hmem' : rC ∈ rest := by
        rcases List.mem_cons.mp hmem with rfl | hm
        · exact absurd h hb
        · exact hm
      have hC' : ((rest.map (fun r => r.item.id)).Nodup) := by
        rw [List.map_cons] at hC
        exact hC.of_cons
      exact find?_id_eq_some rest hC' rC hmem' idv h

/-- C5: in the hybrid merge with weights `wI`/`wC`, a record in both result
sets receives `itemScore × wI + contentScore × wC`, a record in exactly one
set receives its score times that set's weight, and the response is the
merged map sorted by recommendation score descending and truncated to the
limit. -/
theorem c5_hybrid_weighted_merge (wI wC : ℚ) (recsI recsC : List RecommendationRec)
    (id0 : Str) (restIds : List Str) (limit : ℕ)
    (hI : (recsI.map (fun r => r.item.id)).Nodup)
    (hC : (recsC.map (fun r => r.item.id)).Nodup) :
    (∀ rI ∈ recsI, ∀ rC ∈ recsC, rI.item.id = rC.item.id →
       { rI with recommendationScore :=
           rI.recommendationScore * wI + rC.recommendationScore * wC }
         ∈ hybridMergedMap wI wC recsI recsC) ∧
    (∀ rI ∈ recsI, (∀ rC ∈ recsC, ¬ rC.item.id = rI.item.id) →
       { rI with recommendationScore := rI.recommendationScore * wI }
         ∈ hybridMergedMap wI wC recsI recsC) ∧
    (∀ rC ∈ recsC, (∀ rI ∈ recsI, ¬ rI.item.id = rC.item.id) →
       { rC with recommendationScore := rC.recommendationScore * wC }
         ∈ hybridMergedMap wI wC recsI recsC) ∧
    getHybridRecommendations (id0 :: restIds) true wI wC (.ok recsI) (.ok recsC) limit
      = .ok (((hybridMergedMap wI wC recsI recsC).mergeSort
          (fun a b => decide (b.recommendationScore ≤ a.recommendationScore))).take limit) ∧
    (∀ out, getHybridRecommendations (id0 :: restIds) true wI wC
        (.ok recsI) (.ok recsC) limit = .ok out →
      out.Pairwise (fun a b => b.recommendationScore ≤ a.recommendationScore)) := by
  have hm1 : recsI.foldl (upsertItemRec wI) []
      = recsI.map (fun r => { r with recommendationScore := r.recommendationScore * wI }) := by
    have := foldl_upsertItem wI recsI [] (by simp) hI
    simpa using this
  have hM : hybridMergedMap wI wC recsI recsC
      = (recsI.map (fun r => { r with recommendationScore := r.recommendationScore * wI })).map
          (contentAdjust wC recsC)
        ++ (recsC.filter (fun rc =>
            ¬ (recsI.map (fun r =>
                { r with recommendationScore := r.recommendationScore * wI })).any
              (fun a => decide (a.item.id = rc.item.id)))).map
            (fun rc => { rc with recommendationScore := rc.recommendationScore * wC }) := by
    rw [hybridMergedMap, hm1, foldl_upsertContent wC recsC _ hC]
  refine ⟨?_, ?_, ?_, ?_, ?_⟩
  · intro rI hmemI rC hmemC hid
    rw [hM]
    apply List.mem_append_left
    have hfind := find?_id_eq_some recsC hC rC hmemC rI.item.id hid.symm
    have hadj : contentAdjust wC recsC
        { rI with recommendationScore := rI.recommendationScore * wI }
        = { rI with recommendationScore :=
            rI.recommendationScore * wI + rC.recommendationScore * wC } := by
      rw [contentAdjust]
      rw [show ({ rI with recommendationScore :=
          rI.recommendationScore * wI } : RecommendationRec).item.id = rI.item.id from rfl,
        hfind]
    rw [← hadj]
    exact List.mem_map_of_mem _ (List.mem_map_of_mem _ hmemI)
  · intro rI hmemI hnone
    rw [hM]
    apply List.mem_append_left
    have hadj : contentAdjust wC recsC
        { rI with recommendationScore := rI.recommendationScore * wI }
        = { rI with recommendationScore := rI.recommendationScore * wI } := by
      apply contentAdjust_of_none
      intro rc hrc
      exact hnone rc hrc
    rw [← hadj]
    exact List.mem_map_of_mem _ (List.mem_map_of_mem _ hmemI)
  · intro rC hmemC hnone
    rw [hM]
    apply List.mem_append_right
    apply List.mem_map_of_mem
    apply List.mem_filter.mpr
    refine ⟨hmemC, ?_⟩
    have hcomp : (fun a : RecommendationRec => decide (a.item.id = rC.item.id)) ∘
        (fun r => { r with recommendationScore := r.recommendationScore * wI })
        = fun a : RecommendationRec => decide (a.item.id = rC.item.id) :=
      funext (fun a => rfl)
    simp only [decide_eq_true_eq, List.any_map, hcomp]
    simp only [List.any_eq_true, decide_eq_true_eq, not_exists, not_and]
    intro x hx
    exact hnone x hx
  · rfl
  · intro out hout
    have hout' : out = ((hybridMergedMap wI wC recsI recsC).mergeSort
        (fun a b => decide (b.recommendationScore ≤ a.recommendationScore))).take limit := by
      have : Except.ok (ε := ErrT) (((hybridMergedMap wI wC recsI recsC).mergeSort
          (fun a b => decide (b.recommendationScore ≤ a.recommendationScore))).take limit)
          = .ok out := by rw [← hout]; rfl
      exact (Except.ok.inj this).symm
    subst hout'
    have hsorted := @List.sorted_mergeSort RecommendationRec
      (fun a b : RecommendationRec => decide (b.recommendationScore ≤ a.recommendationScore))
      (fun a b c hab hbc => by
        simp only [decide_eq_true_eq] at *
        exact le_trans hbc hab)
      (fun a b => by
        simp only [Bool.or_eq_true, decide_eq_true_eq]
        exact le_total _ _)
      (hybridMergedMap wI wC recsI recsC)
    have hsorted' := hsorted.imp (fun h => of_decide_eq_true h)
    exact hsorted'.sublist (List.take_sublist _ _)

/-- Record reachable through both hybrid sub-strategies. -/
def itemX : MediaItem :=
  { id := ("x".toList), title := ("X".toList), type := MediaTypeT.text }

/-- Item-based recommendation of `itemX` with similarity 0.85. -/
def recItemX : RecommendationRec :=
  { item := itemX, similarity := 85 / 100, distance := 15 / 100
    recommendationScore := 85 / 100 }

/-- Content-based recommendation of `itemX` with similarity 0.70. -/
def recContentX : RecommendationRec :=
  { item := itemX, similarity := 70 / 100, distance := 30 / 100
    recommendationScore := 70 / 100 }

/-- C5, witness: item-similarity 0.85 and content-similarity 0.70 with
weights 0.6/0.4 merge to 0.79. -/
theorem c5_hybrid_weighted_merge_witness :
    ({ recItemX with recommendationScore :=
        recItemX.recommendationScore * (6 / 10) +
        recContentX.recommendationScore * (4 / 10) }
      ∈ hybridMergedMap (6 / 10) (4 / 10) [recItemX] [recContentX]) ∧
    recItemX.recommendationScore * (6 / 10) +
      recContentX.recommendationScore * (4 / 10) = 79 / 100 := by
  constructor
  · exact (c5_hybrid_weighted_merge (6 / 10) (4 / 10) [recItemX] [recContentX] ("q".toList) [] 6
      (by simp) (by simp)).1 recItemX (by simp) recContentX (by simp) rfl
  · norm_num [recItemX, recContentX]

/-!
## Claims about result ordering and truncation (C2)
-/
/-- Nearest candidate: text record whose title shares nothing with the query. -/
def itemA : MediaItem :=
  { id := ("a".toList), title := ("zzz".toList), type := MediaTypeT.text }

/-- Farther candidate: text record whose title and description contain the
query exactly (it earns the full context boost). -/
def itemB : MediaItem :=
  { id := ("b".toList), title := ("qqq".toList), type := MediaTypeT.text
    description := some ("qqq".toList) }

/-- Candidate row for `itemA`, distance 0.1 (similarity 0.9). -/
def rowA : CandidateRow := { item := itemA, distance := 1 / 10 }

/-- Candidate row for `itemB`, distance 0.25 (similarity 0.75). -/
def rowB : CandidateRow := { item := itemB, distance := 1 / 4 }

example : calculateRelevanceScore itemA ("qqq".toList) (9 / 10) = 9 / 10 := by
  have h : calculateRelevanceScore itemA ("qqq".toList) (9 / 10) = min 1 ((9 : ℚ) / 10) := rfl
  rw [h]
  norm_num

example : calculateRelevanceScore itemB ("qqq".toList) (3 / 4) = 19 / 20 := by
  have h : calculateRelevanceScore itemB ("qqq".toList) (3 / 4) =
      min 1 ((((3 : ℚ) / 4 + 1 / 10) +
        (((1 : ℕ) : ℚ) / ((1 : ℕ) : ℚ)) * (5 / 100)) + 5 / 100) := rfl
  rw [h]
  norm_num

/-- Context boost leaves `itemA` at its base similarity. -/
lemma relevanceScore_itemA_eval : calculateRelevanceScore itemA (['q', 'q', 'q']) (9 / 10) = 9 / 10 := by
  have h : calculateRelevanceScore itemA (['q', 'q', 'q']) (9 / 10) = min 1 ((9 : ℚ) / 10) := rfl
  rw [h]; norm_num

/-- Context boost lifts `itemB` from 0.75 to 0.95 (title containment 0.1,
full word overlap 0.05, description containment 0.05). -/
lemma relevanceScore_itemB_eval : calculateRelevanceScore itemB (['q', 'q', 'q']) (3 / 4) = 19 / 20 := by
  have h : calculateRelevanceScore itemB (['q', 'q', 'q']) (3 / 4) =
      min 1 ((((3 : ℚ) / 4 + 1 / 10) +
        (((1 : ℕ) : ℚ) / ((1 : ℕ) : ℚ)) * (5 / 100)) + 5 / 100) := rfl
  rw [h]; norm_num

/-- Similarity column of `rowA`. -/
lemma rowSim_rowA_eval : rowSim rowA = 9 / 10 := by
  norm_num [rowSim, show rowA.distance = (1 : ℚ) / 10 from rfl]

/-- Similarity column of `rowB`. -/
lemma rowSim_rowB_eval : rowSim rowB = 3 / 4 := by
  norm_num [rowSim, show rowB.distance = (1 : ℚ) / 4 from rfl]

/-- Full scoring of `rowA` for the query `qqq`. -/
lemma scoreRow_rowA_eval : scoreRow 0 (['q', 'q', 'q']) true rowA =
    { item := itemA, similarity := 9 / 10, distance := 1 / 10
      relevanceScore := 9 / 10, semanticMatch := true } := by
  have hBA : applyTypeAwareBoosting MediaMatchingSettings 0 itemA (['q', 'q', 'q'])
      (rowSim rowA) = 9 / 10 := by
    rw [rowSim_rowA_eval]
    exact boost_skips_text_image MediaMatchingSettings 0 itemA (['q', 'q', 'q']) (9 / 10)
      (Or.inl rfl) (by norm_num [MediaMatchingSettings])
      (by norm_num [MediaMatchingSettings]) (by norm_num)
  rw [scoreRow]
  simp only [show rowA.item = itemA from rfl, show rowA.distance = (1 : ℚ) / 10 from rfl,
    hBA, if_true, relevanceScore_itemA_eval, RankedResult.mk.injEq]
  refine ⟨trivial, trivial, trivial, ?_⟩
  rw [decide_eq_true_eq]
  norm_num [STRONG_MATCH_THRESHOLD]

/-- Full scoring of `rowB` for the query `qqq`. -/
lemma scoreRow_rowB_eval : scoreRow 0 (['q', 'q', 'q']) true rowB =
    { item := itemB, similarity := 3 / 4, distance := 1 / 4
      relevanceScore := 19 / 20, semanticMatch := true } := by
  have hBB : applyTypeAwareBoosting MediaMatchingSettings 0 itemB (['q', 'q', 'q'])
      (rowSim rowB) = 3 / 4 := by
    rw [rowSim_rowB_eval]
    exact boost_skips_text_image MediaMatchingSettings 0 itemB (['q', 'q', 'q']) (3 / 4)
      (Or.inl rfl) (by norm_num [MediaMatchingSettings])
      (by norm_num [MediaMatchingSettings]) (by norm_num)
  rw [scoreRow]
  simp only [show rowB.item = itemB from rfl, show rowB.distance = (1 : ℚ) / 4 from rfl,
    hBB, if_true, relevanceScore_itemB_eval, RankedResult.mk.injEq]
  refine ⟨trivial, trivial, trivial, ?_⟩
  rw [decide_eq_true_eq]
  norm_num [STRONG_MATCH_THRESHOLD]

/-- C2, counterexample: with limit 1, both candidates survive the threshold
filter, yet the returned result is `itemA` (score 0.9) — the candidate
nearest by raw distance — while the surviving candidate `itemB` scores 0.95:
`semanticSearch` truncates to the limit before boosting and sorting, so it
does not return the limit highest-scoring surviving candidates. -/
theorem c2_truncation_counterexample :
    semanticSearch 0 ("qqq".toList) 1 (3 / 10) true (.ok []) (.ok 2) (.ok [rowA, rowB]) =
      .ok { results := [{ item := itemA, similarity := 9 / 10, distance := 1 / 10
                          relevanceScore := 9 / 10, semanticMatch := true }]
            helpfulMessage := none
            searchMetadata :=
              { totalCandidates := 2, filteredResults := 1
                averageSimilarity := 9 / 10, effectiveMinSimilarity := some (3 / 10) } } ∧
    (scoreRow 0 (['q', 'q', 'q']) true rowB).relevanceScore = 19 / 20 ∧
    (9 : ℚ) / 10 < 19 / 20 ∧
    rowSim rowB ≥ 3 / 10 := by
  refine ⟨?_, ?_, by norm_num, by rw [rowSim_rowB_eval]; norm_num⟩
  · norm_num [semanticSearch, semanticProcessRows, validateLimit, roundTo3,
      SEMANTIC_SEARCH_ADAPTIVE_THRESHOLD, rowSim_rowA_eval, rowSim_rowB_eval, scoreRow_rowA_eval,
      show rowA.distance = (1 : ℚ) / 10 from rfl,
      show rowB.distance = (1 : ℚ) / 4 from rfl,
      List.filter, Bind.bind, Except.bind, pure, Except.pure, round_eq]
  · rw [scoreRow_rowB_eval]

/-- C2 (amended): when the initial threshold filter is non-empty,
`semanticSearch` truncates the surviving candidates to the validated limit
in ascending-distance order first, then applies the Relevance Booster and
context boost to those candidates only and sorts them by the resulting
score descending — the returned results are a permutation of the scored
`limit`-nearest survivors in descending score order, with the effective
threshold unchanged. -/
theorem c2_truncate_before_score_amended (now : ℚ) (query : Str) (validatedLimit : ℕ)
    (minSim : ℚ) (cb : Bool) (cands : List CandidateRow)
    (hne : ¬ ((cands.filter (fun r => r.distance ≤ SEMANTIC_SEARCH_ADAPTIVE_THRESHOLD)).filter
      (fun r => rowSim r ≥ minSim)).isEmpty) :
    (semanticProcessRows now query validatedLimit minSim cb cands).1.Pairwise
      (fun a b => b.relevanceScore ≤ a.relevanceScore) ∧
    (semanticProcessRows now query validatedLimit minSim cb cands).1.Perm
      ((((cands.filter (fun r => r.distance ≤ SEMANTIC_SEARCH_ADAPTIVE_THRESHOLD)).filter
        (fun r => rowSim r ≥ minSim)).take validatedLimit).map (scoreRow now query cb)) ∧
    (semanticProcessRows now query validatedLimit minSim cb cands).2 = minSim := by
  rw [semanticProcessRows]
  have hcond : ¬ (((cands.filter (fun r => r.distance ≤ SEMANTIC_SEARCH_ADAPTIVE_THRESHOLD)).filter
      (fun r => rowSim r ≥ minSim)).isEmpty = true ∧
      ¬ (cands.filter (fun r => r.distance ≤ SEMANTIC_SEARCH_ADAPTIVE_THRESHOLD)).isEmpty = true) :=
    fun hc => hne hc.1
  simp only [if_neg hcond]
  refine ⟨?_, ?_, trivial⟩
  · have hsorted := @List.sorted_mergeSort RankedResult
      (fun a b : RankedResult => decide (b.relevanceScore ≤ a.relevanceScore))
      (fun a b c hab hbc => by
        simp only [decide_eq_true_eq] at *
        exact le_trans hbc hab)
      (fun a b => by
        simp only [Bool.or_eq_true, decide_eq_true_eq]
        exact le_total _ _)
      ((((cands.filter (fun r => r.distance ≤ SEMANTIC_SEARCH_ADAPTIVE_THRESHOLD)).filter
        (fun r => rowSim r ≥ minSim)).take validatedLimit).map (scoreRow now query cb))
    exact hsorted.imp (fun h => of_decide_eq_true h)
  · exact List.mergeSort_perm _ _

/-- C2, witness: the amended characterization applied at the concrete
two-candidate pool. -/
theorem c2_truncate_before_score_amended_witness :
    (semanticProcessRows 0 ("qqq".toList) 1 (3 / 10) true [rowA, rowB]).1.Pairwise
      (fun a b => b.relevanceScore ≤ a.relevanceScore) ∧
    (semanticProcessRows 0 ("qqq".toList) 1 (3 / 10) true [rowA, rowB]).1.Perm
      (((([rowA, rowB].filter (fun r => r.distance ≤ SEMANTIC_SEARCH_ADAPTIVE_THRESHOLD)).filter
        (fun r => rowSim r ≥ 3 / 10)).take 1).map (scoreRow 0 ("qqq".toList) true)) ∧
    (semanticProcessRows 0 ("qqq".toList) 1 (3 / 10) true [rowA, rowB]).2 = 3 / 10 :=
  c2_truncate_before_score_amended 0 ("qqq".toList) 1 (3 / 10) true [rowA, rowB]
    (by norm_num [rowSim_rowA_eval, rowSim_rowB_eval, SEMANTIC_SEARCH_ADAPTIVE_THRESHOLD, List.filter,
      show rowA.distance = (1 : ℚ) / 10 from rfl,
      show rowB.distance = (1 : ℚ) / 4 from rfl])
